import Mathlib

/-!
Verification of the drone-operations coordination core: entity tables
(pilots, drones, missions), the conflict-detection engine, candidate
ranking, assignment/reassignment operations, and the automatic
reassignment of urgent conflicts.  Definitions are a shallow embedding of
the Python modules (`conflict_detector.py`, `roster_manager.py`,
`drone_inventory.py`, `assignment_tracker.py`, `data_loader.py`):
dataframes become lists of rows, in-place dataframe mutation becomes
explicit state passing, Python dicts with optional keys become structures
with `Option` fields, and Python's stable `list.sort` becomes insertion
sort (any two stable sorts by the same key agree).  The float candidate
score (an exact multiple of 0.5 in the source) is stored doubled as a
natural number (`score2`), which is order- and value-faithful.
-/

namespace Skylark

/-- Pilot row, columns as in `pilot_roster.csv`. Dates are kept as opaque
strings: no operation under verification computes on them. -/
structure Pilot where
  pilot_id : String
  name : String
  skills : String
  certifications : String
  location : String
  status : String
  current_assignment : String
  available_from : String
deriving DecidableEq, Repr

/-- Drone row, columns as in `drone_fleet.csv`. -/
structure Drone where
  drone_id : String
  model : String
  capabilities : String
  location : String
  status : String
  current_assignment : String
  maintenance_due : String
deriving DecidableEq, Repr

/-- Mission row, columns as in `missions.csv`. -/
structure Mission where
  project_id : String
  client : String
  location : String
  required_skills : String
  required_certs : String
  start_date : String
  end_date : String
  priority : String
deriving DecidableEq, Repr

/-- The three tables owned by `DataLoader`. -/
structure DB where
  pilots : List Pilot
  drones : List Drone
  missions : List Mission
deriving DecidableEq, Repr

/-- A conflict finding: the Python dict built by the detectors.  Keys that
are present only in some detectors are `Option` fields (`none` models an
absent key); keys that feed only the already-baked `issue` text
(`missing_skills`, locations, `priority`, `status`) are not stored
separately. -/
structure Conflict where
  ctype : String
  severity : String
  issue : String
  pilot_id : Option String := none
  pilot_name : Option String := none
  pilot_status : Option String := none
  drone_id : Option String := none
  drone_model : Option String := none
  assignment : Option String := none
deriving DecidableEq, Repr

/-- Split a char list at commas (model of Python `str.split(',')`). -/
def splitAux : List Char → List Char → List (List Char)
  | [], acc => [acc.reverse]
  | c :: cs, acc => if c = ',' then acc.reverse :: splitAux cs [] else splitAux cs (c :: acc)

/-- Strip leading and trailing whitespace (model of Python `str.strip()`). -/
def trimChars (cs : List Char) : List Char :=
  ((cs.dropWhile Char.isWhitespace).reverse.dropWhile Char.isWhitespace).reverse

/-- `[x.strip() for x in s.split(',')]`. -/
def splitTrim (s : String) : List String :=
  (splitAux s.data []).map (fun cs => String.mk (trimChars cs))

/-- Model of Python `str.lower()` (ASCII suffices for this data). -/
def lowerStr (s : String) : String := String.mk (s.data.map Char.toLower)

/-- `[x.strip().lower() for x in s.split(',')]`. -/
def splitTrimLower (s : String) : List String := (splitTrim s).map lowerStr

/-- `", ".join(l)`. -/
def joinComma : List String → String
  | [] => ""
  | [s] => s
  | s :: rest => s ++ ", " ++ joinComma rest

/-- The sentinel marking "no assignment" in the CSV data. -/
def sentinel : String := "–"

/-- The loop body of `detect_pilot_double_booking` for one pilot row. -/
def bookRow (p : Pilot) : List Conflict :=
  (if p.status = "On Leave" ∧ p.current_assignment ≠ sentinel then
      [{ ctype := "Pilot On Leave but Assigned", severity := "CRITICAL",
         issue := p.name ++ " is On Leave but assigned to " ++ p.current_assignment,
         pilot_id := some p.pilot_id, pilot_name := some p.name,
         pilot_status := some p.status, assignment := some p.current_assignment }]
     else []) ++
    (if p.status = "Unavailable" ∧ p.current_assignment ≠ sentinel then
      [{ ctype := "Pilot Unavailable but Assigned", severity := "HIGH",
         issue := p.name ++ " is Unavailable but assigned to " ++ p.current_assignment,
         pilot_id := some p.pilot_id, pilot_name := some p.name,
         pilot_status := some p.status, assignment := some p.current_assignment }]
     else [])

/-- `ConflictDetector.detect_pilot_double_booking`: pilots On Leave or
Unavailable that still hold an assignment. -/
def detect_pilot_double_booking (pilots : List Pilot) : List Conflict :=
  pilots.flatMap bookRow

/-- First mission with the given project id (`missions[missions['project_id'] == x].iloc[0]`). -/
def findMission (missions : List Mission) (pid : String) : Option Mission :=
  missions.find? (fun m => m.project_id == pid)

/-- `ConflictDetector.detect_skill_mismatch`. -/
def detect_skill_mismatch (pilots : List Pilot) (missions : List Mission) : List Conflict :=
  pilots.flatMap fun p =>
    if p.current_assignment = sentinel then []
    else
      match findMission missions p.current_assignment with
      | none => []
      | some m =>
        let pilot_skills := splitTrim p.skills
        let required_skills := splitTrim m.required_skills
        let missing_skills := required_skills.filter (fun s => !pilot_skills.contains s)
        if missing_skills.isEmpty then []
        else
          [{ ctype := "Skill Mismatch", severity := "MEDIUM",
             issue := p.name ++ " lacks skills: " ++ joinComma missing_skills,
             pilot_id := some p.pilot_id, pilot_name := some p.name,
             assignment := some m.project_id }]

/-- `ConflictDetector.detect_certification_mismatch`. -/
def detect_certification_mismatch (pilots : List Pilot) (missions : List Mission) : List Conflict :=
  pilots.flatMap fun p =>
    if p.current_assignment = sentinel then []
    else
      match findMission missions p.current_assignment with
      | none => []
      | some m =>
        let pilot_certs := splitTrim p.certifications
        let required_certs := splitTrim m.required_certs
        let missing_certs := required_certs.filter (fun c => !pilot_certs.contains c)
        if missing_certs.isEmpty then []
        else
          [{ ctype := "Certification Mismatch", severity := "HIGH",
             issue := p.name ++ " lacks certifications: " ++ joinComma missing_certs,
             pilot_id := some p.pilot_id, pilot_name := some p.name,
             assignment := some m.project_id }]

/-- `ConflictDetector.detect_location_mismatch` (pilot part then drone part). -/
def detect_location_mismatch (pilots : List Pilot) (drones : List Drone)
    (missions : List Mission) : List Conflict :=
  (pilots.flatMap fun p =>
    if p.current_assignment = sentinel then []
    else
      match findMission missions p.current_assignment with
      | none => []
      | some m =>
        if p.location ≠ m.location then
          [{ ctype := "Pilot Location Mismatch", severity := "MEDIUM",
             issue := p.name ++ " is in " ++ p.location ++ " but assigned to mission in " ++
               m.location,
             pilot_id := some p.pilot_id, pilot_name := some p.name }]
        else []) ++
  (drones.flatMap fun d =>
    if d.current_assignment = sentinel then []
    else
      match findMission missions d.current_assignment with
      | none => []
      | some m =>
        if d.location ≠ m.location then
          [{ ctype := "Drone Location Mismatch", severity := "MEDIUM",
             issue := d.model ++ " is in " ++ d.location ++ " but assigned to mission in " ++
               m.location,
             drone_id := some d.drone_id, drone_model := some d.model }]
        else [])

/-- `ConflictDetector.detect_maintenance_conflict`. -/
def detect_maintenance_conflict (drones : List Drone) : List Conflict :=
  drones.flatMap fun d =>
    if d.status = "Maintenance" ∧ d.current_assignment ≠ sentinel then
      [{ ctype := "Maintenance Conflict", severity := "CRITICAL",
         issue := d.model ++ " is in Maintenance but assigned to " ++ d.current_assignment,
         drone_id := some d.drone_id, drone_model := some d.model,
         assignment := some d.current_assignment }]
    else []

/-- `ConflictDetector.detect_urgent_mission_conflicts`. -/
def detect_urgent_mission_conflicts (pilots : List Pilot) (missions : List Mission) :
    List Conflict :=
  missions.flatMap fun m =>
    if m.priority = "Urgent" ∨ m.priority = "High" then
      (pilots.filter (fun p => p.current_assignment == m.project_id)).flatMap fun p =>
        if p.status = "On Leave" then
          [{ ctype := "Urgent Mission - Pilot On Leave", severity := "CRITICAL",
             issue := "URGENT: " ++ p.name ++ " is On Leave but assigned to " ++ m.priority ++
               " priority mission " ++ m.project_id,
             pilot_id := some p.pilot_id, pilot_name := some p.name,
             pilot_status := some p.status, assignment := some m.project_id }]
        else []
    else []

/-- The concatenation of the detector outputs, in the order
`get_all_conflicts` runs them. -/
def allConflicts (db : DB) : List Conflict :=
  detect_pilot_double_booking db.pilots ++
  detect_skill_mismatch db.pilots db.missions ++
  detect_certification_mismatch db.pilots db.missions ++
  detect_location_mismatch db.pilots db.drones db.missions ++
  detect_maintenance_conflict db.drones ++
  detect_urgent_mission_conflicts db.pilots db.missions

/-- The dedup loop of `get_all_conflicts`: keep a conflict when its issue
string has not been seen yet. -/
def dedupByIssue : List Conflict → List String → List Conflict
  | [], _ => []
  | c :: rest, seen =>
    if c.issue ∈ seen then dedupByIssue rest seen
    else c :: dedupByIssue rest (c.issue :: seen)

/-- `severity_order.get(severity, 4)`. -/
def sevRank (s : String) : Nat :=
  if s = "CRITICAL" then 0
  else if s = "HIGH" then 1
  else if s = "MEDIUM" then 2
  else if s = "LOW" then 3
  else 4

/-- Finding `a` may be placed before finding `b` by the severity sort. -/
def sevLe (a b : Conflict) : Prop := sevRank a.severity ≤ sevRank b.severity

instance : DecidableRel sevLe := fun a b => Nat.decLe (sevRank a.severity) (sevRank b.severity)

/-- `ConflictDetector.get_all_conflicts`: run all detectors, deduplicate by
issue text, stable-sort by severity rank. -/
def get_all_conflicts (db : DB) : List Conflict :=
  List.insertionSort sevLe (dedupByIssue (allConflicts db) [])

/-- Python truthiness of an optional-string argument: present and non-empty. -/
def pyTruthy : Option String → Bool
  | none => false
  | some s => s ≠ ""

/-- The field writes `DataLoader.update_pilot_status` performs on the row it
found: status unconditionally, assignment and available_from only when the
argument is truthy. -/
def applyPilotUpd (p : Pilot) (st : String) (asg af : Option String) : Pilot :=
  let p1 := { p with status := st }
  let p2 := if pyTruthy asg then { p1 with current_assignment := asg.getD p.current_assignment }
            else p1
  if pyTruthy af then { p2 with available_from := af.getD p.available_from } else p2

/-- `DataLoader.update_pilot_status`: update the first row whose id matches,
report whether a row was found. -/
def update_pilot_status : List Pilot → String → String → Option String → Option String →
    List Pilot × Bool
  | [], _, _, _, _ => ([], false)
  | p :: rest, pid, st, asg, af =>
    if p.pilot_id = pid then (applyPilotUpd p st asg af :: rest, true)
    else
      let r := update_pilot_status rest pid st asg af
      (p :: r.1, r.2)

/-- The field writes `DataLoader.update_drone_status` performs on the row. -/
def applyDroneUpd (d : Drone) (st : String) (asg : Option String) : Drone :=
  let d1 := { d with status := st }
  if pyTruthy asg then { d1 with current_assignment := asg.getD d.current_assignment } else d1

/-- `DataLoader.update_drone_status`. -/
def update_drone_status : List Drone → String → String → Option String → List Drone × Bool
  | [], _, _, _ => ([], false)
  | d :: rest, did, st, asg =>
    if d.drone_id = did then (applyDroneUpd d st asg :: rest, true)
    else
      let r := update_drone_status rest did st asg
      (d :: r.1, r.2)

/-- Structured success/failure response shared by the manager operations. -/
structure OpResult where
  success : Bool
  message : String
deriving DecidableEq, Repr

/-- `DataLoader.get_pilot_by_id` (first matching row). -/
def getPilotById (pilots : List Pilot) (pid : String) : Option Pilot :=
  pilots.find? (fun p => p.pilot_id == pid)

/-- `DataLoader.get_drone_by_id`. -/
def getDroneById (drones : List Drone) (did : String) : Option Drone :=
  drones.find? (fun d => d.drone_id == did)

/-- `DataLoader.get_mission_by_id`. -/
def getMissionById (missions : List Mission) (mid : String) : Option Mission :=
  missions.find? (fun m => m.project_id == mid)

/-- `RosterManager.update_pilot_assignment` (callers pass status `"Assigned"`,
the Python default). -/
def update_pilot_assignment (pilots : List Pilot) (pid proj status : String) :
    List Pilot × OpResult :=
  let r := update_pilot_status pilots pid status (some proj) none
  if r.2 then (r.1, ⟨true, "Pilot " ++ pid ++ " assigned to " ++ proj⟩)
  else (r.1, ⟨false, "Pilot " ++ pid ++ " not found"⟩)

/-- `RosterManager.mark_pilot_on_leave`. -/
def mark_pilot_on_leave (pilots : List Pilot) (pid available_from_date : String) :
    List Pilot × OpResult :=
  let r := update_pilot_status pilots pid "On Leave" (some sentinel) (some available_from_date)
  if r.2 then (r.1, ⟨true, "Pilot " ++ pid ++ " marked on leave"⟩)
  else (r.1, ⟨false, "Pilot " ++ pid ++ " not found"⟩)

/-- `RosterManager.mark_pilot_available`. -/
def mark_pilot_available (pilots : List Pilot) (pid : String) : List Pilot × OpResult :=
  let r := update_pilot_status pilots pid "Available" (some sentinel) none
  if r.2 then (r.1, ⟨true, "Pilot " ++ pid ++ " marked available"⟩)
  else (r.1, ⟨false, "Pilot " ++ pid ++ " not found"⟩)

/-- `DroneInventory.assign_drone`. -/
def assign_drone (drones : List Drone) (did proj : String) : List Drone × OpResult :=
  let r := update_drone_status drones did "Deployed" (some proj)
  if r.2 then (r.1, ⟨true, "Drone " ++ did ++ " assigned to " ++ proj⟩)
  else (r.1, ⟨false, "Drone " ++ did ++ " not found"⟩)

/-- `DroneInventory.mark_drone_available`. -/
def mark_drone_available (drones : List Drone) (did : String) : List Drone × OpResult :=
  let r := update_drone_status drones did "Available" (some sentinel)
  if r.2 then (r.1, ⟨true, "Drone " ++ did ++ " marked available"⟩)
  else (r.1, ⟨false, "Drone " ++ did ++ " not found"⟩)

/-- `DroneInventory.mark_drone_maintenance`. -/
def mark_drone_maintenance (drones : List Drone) (did : String) : List Drone × OpResult :=
  let r := update_drone_status drones did "Maintenance" (some sentinel)
  if r.2 then (r.1, ⟨true, "Drone " ++ did ++ " marked for maintenance"⟩)
  else (r.1, ⟨false, "Drone " ++ did ++ " not found"⟩)

/-- `AssignmentTracker.assign_pilot_to_mission`: look up pilot and mission,
require the pilot to be Available, then delegate to the roster update. -/
def assign_pilot_to_mission (db : DB) (pid mid : String) : DB × OpResult :=
  match getPilotById db.pilots pid, getMissionById db.missions mid with
  | some p, some _ =>
    if p.status ≠ "Available" then (db, ⟨false, "Pilot " ++ pid ++ " is " ++ p.status⟩)
    else
      let r := update_pilot_assignment db.pilots pid mid "Assigned"
      ({ db with pilots := r.1 }, r.2)
  | _, _ => (db, ⟨false, "Pilot or Mission not found"⟩)

/-- `AssignmentTracker.assign_drone_to_mission`. -/
def assign_drone_to_mission (db : DB) (did mid : String) : DB × OpResult :=
  match getDroneById db.drones did, getMissionById db.missions mid with
  | some d, some _ =>
    if d.status ≠ "Available" then (db, ⟨false, "Drone " ++ did ++ " is " ++ d.status⟩)
    else
      let r := assign_drone db.drones did mid
      ({ db with drones := r.1 }, r.2)
  | _, _ => (db, ⟨false, "Drone or Mission not found"⟩)

/-- Response of the reassignment operations, carrying the recorded old
assignment on success. -/
structure ReassignResult where
  success : Bool
  message : String
  old_assignment : Option String := none
  new_assignment : Option String := none
deriving DecidableEq, Repr

/-- `AssignmentTracker.reassign_pilot`: no availability check; records the
pilot's previous assignment and overwrites it. -/
def reassign_pilot (db : DB) (pid mid : String) : DB × ReassignResult :=
  match getPilotById db.pilots pid, getMissionById db.missions mid with
  | some p, some _ =>
    let old := p.current_assignment
    let r := update_pilot_assignment db.pilots pid mid "Assigned"
    if r.2.success then
      ({ db with pilots := r.1 },
        ⟨true, "Pilot reassigned from " ++ old ++ " to " ++ mid, some old, some mid⟩)
    else ({ db with pilots := r.1 }, ⟨false, r.2.message, none, none⟩)
  | _, _ => (db, ⟨false, "Pilot or Mission not found", none, none⟩)

/-- `AssignmentTracker.reassign_drone`. -/
def reassign_drone (db : DB) (did mid : String) : DB × ReassignResult :=
  match getDroneById db.drones did, getMissionById db.missions mid with
  | some d, some _ =>
    let old := d.current_assignment
    let r := assign_drone db.drones did mid
    if r.2.success then
      ({ db with drones := r.1 },
        ⟨true, "Drone reassigned from " ++ old ++ " to " ++ mid, some old, some mid⟩)
    else ({ db with drones := r.1 }, ⟨false, r.2.message, none, none⟩)
  | _, _ => (db, ⟨false, "Drone or Mission not found", none, none⟩)

/-- `AssignmentTracker.unassign_pilot`. -/
def unassign_pilot (pilots : List Pilot) (pid : String) : List Pilot × OpResult :=
  mark_pilot_available pilots pid

/-- `AssignmentTracker.unassign_drone`. -/
def unassign_drone (drones : List Drone) (did : String) : List Drone × OpResult :=
  mark_drone_available drones did

/-- A ranked candidate produced by `find_best_pilot_for_mission`.  `score2`
is twice the source's float score: the source computes
`skill_match*2 + cert_match*1.5 + location_match*0.5`, always an exact
multiple of 0.5, so doubling stores it exactly as a natural number. -/
structure Candidate where
  pilot_id : String
  name : String
  score2 : Nat
  skills_match : Nat
  cert_match : Nat
  location_match : Nat
deriving DecidableEq, Repr

/-- The loop body of `RosterManager.find_best_pilot_for_mission`: the
candidate entry an Available pilot contributes, if it passes the cert
hard filter and the skill-overlap requirement. -/
def candidateOf (required_skills required_certs location : String) (p : Pilot) :
    Option Candidate :=
  let pilot_skills := splitTrim p.skills
  let pilot_certs := splitTrim p.certifications
  let required_skills_list := splitTrim required_skills
  let required_certs_list := splitTrim required_certs
  let skill_match := required_skills_list.countP (fun s => pilot_skills.contains s)
  let cert_match := required_certs_list.countP (fun c => pilot_certs.contains c)
  let location_match := if p.location = location then 1 else 0
  if skill_match > 0 ∧ cert_match = required_certs_list.length then
    some ⟨p.pilot_id, p.name, skill_match * 4 + cert_match * 3 + location_match,
      skill_match, cert_match, location_match⟩
  else none

/-- The surviving candidates of `find_best_pilot_for_mission`, in table
order, before sorting. -/
def eligibleCandidates (pilots : List Pilot) (required_skills required_certs location : String) :
    List Candidate :=
  (pilots.filter (fun p => p.status == "Available")).filterMap
    (candidateOf required_skills required_certs location)

/-- `a` may be placed before `b` by the descending-score sort. -/
def scoreGe (a b : Candidate) : Prop := b.score2 ≤ a.score2

instance : DecidableRel scoreGe := fun a b => Nat.decLe b.score2 a.score2

/-- `RosterManager.find_best_pilot_for_mission`: Available pilots, cert
superset hard filter, skill overlap required, stable sort by score
descending. -/
def find_best_pilot_for_mission (pilots : List Pilot)
    (required_skills required_certs location : String) : List Candidate :=
  List.insertionSort scoreGe (eligibleCandidates pilots required_skills required_certs location)

/-- The replacement score of `find_best_replacement_pilot`:
`skill_matches * 2 + cert_matches` over trimmed, lowercased entries. -/
def replScore (m : Mission) (p : Pilot) : Int :=
  let required_skills := splitTrimLower m.required_skills
  let required_certs := splitTrimLower m.required_certs
  let pilot_skills := splitTrimLower p.skills
  let pilot_certs := splitTrimLower p.certifications
  (required_skills.countP (fun s => pilot_skills.contains s) : Int) * 2 +
    (required_certs.countP (fun c => pilot_certs.contains c) : Int)

/-- The Available pilots at the mission's location, in table order: the pool
`find_best_replacement_pilot` scans. -/
def replPool (db : DB) (m : Mission) : List Pilot :=
  (db.pilots.filter (fun p => p.status == "Available")).filter
    (fun p => p.location == m.location)

/-- `ConflictDetector.find_best_replacement_pilot`: none if the mission is
unknown; scan Available pilots at the mission location, skip pilots without
a (lowercased) "dgca" certification, keep the first strictly-best scorer. -/
def find_best_replacement_pilot (db : DB) (mid : String) : Option Pilot :=
  match getMissionById db.missions mid with
  | none => none
  | some m =>
    let location_match := replPool db m
    if location_match.isEmpty then none
    else
      (location_match.foldl (fun acc p =>
        if "dgca" ∈ splitTrimLower p.certifications then
          if acc.2 < replScore m p then (some p, replScore m p) else acc
        else acc) ((none : Option Pilot), (-1 : Int))).1

/-- One record of `auto_reassign_urgent_conflicts`'s report. -/
structure Reassignment where
  conflict : String
  old_pilot : String
  new_pilot : Option String
  new_pilot_id : Option String := none
  mission : String
  status : String
  message : String
deriving DecidableEq, Repr

/-- The body of the loop in `auto_reassign_urgent_conflicts` for one urgent
finding: skip findings without both a pilot id and an assignment; otherwise
look for a replacement against the current table state, and either perform
the two status updates and record SUCCESS, or record FAILED untouched. -/
def autoStep (st : DB × List Reassignment) (c : Conflict) : DB × List Reassignment :=
  match c.pilot_id, c.assignment with
  | some old_pilot_id, some mission_id =>
    let db := st.1
    match find_best_replacement_pilot db mission_id with
    | some replacement =>
      let new_pilot_id := replacement.pilot_id
      let r1 := update_pilot_status db.pilots old_pilot_id (c.pilot_status.getD "On Leave")
        (some sentinel) none
      let r2 := update_pilot_status r1.1 new_pilot_id "Assigned" (some mission_id) none
      ({ db with pilots := r2.1 },
        st.2 ++ [⟨c.issue, c.pilot_name.getD old_pilot_id, some replacement.name,
          some new_pilot_id, mission_id, "SUCCESS",
          "✅ Auto-reassigned " ++ mission_id ++ ": " ++ c.pilot_name.getD old_pilot_id ++
            " → " ++ replacement.name⟩])
    | none =>
      (db, st.2 ++ [⟨c.issue, c.pilot_name.getD old_pilot_id, none, none, mission_id, "FAILED",
        "❌ No suitable replacement found for " ++ mission_id⟩])
  | _, _ => st

/-- Is a finding CRITICAL or HIGH (the urgency filter of
`auto_reassign_urgent_conflicts`)? -/
def isUrgent (c : Conflict) : Bool := c.severity == "CRITICAL" || c.severity == "HIGH"

/-- `ConflictDetector.auto_reassign_urgent_conflicts`: compute the findings
once, then fold the reassignment step over the CRITICAL/HIGH ones,
threading the mutated pilot table. -/
def auto_reassign_urgent_conflicts (db : DB) : DB × List Reassignment :=
  ((get_all_conflicts db).filter isUrgent).foldl autoStep (db, [])

/-! ### Stability of the insertion sort

A stable sort keeps every class of mutually comparable-equal elements in
input order; we capture this through `filter`: a predicate that singles out
one such class filters to the same list before and after sorting. -/

theorem filter_orderedInsert_neg {α : Type} (r : α → α → Prop) [DecidableRel r]
    (p : α → Bool) (a : α) (l : List α) (hpa : p a = false) :
    (l.orderedInsert r a).filter p = l.filter p := by
  induction l with
  | nil => simp [List.orderedInsert, hpa]
  | cons b l ih =>
    by_cases hr : r a b
    · simp [List.orderedInsert, hr, List.filter_cons, hpa]
    · simp only [List.orderedInsert, if_neg hr, List.filter_cons]
      cases hpb : p b <;> simp [ih]

theorem filter_orderedInsert_pos {α : Type} (r : α → α → Prop) [DecidableRel r]
    (p : α → Bool) (a : α) (l : List α) (hpa : p a = true)
    (h : ∀ b ∈ l, p b = true → r a b) :
    (l.orderedInsert r a).filter p = a :: l.filter p := by
  induction l with
  | nil => simp [List.orderedInsert, hpa]
  | cons b l ih =>
    by_cases hr : r a b
    · simp [List.orderedInsert, hr, List.filter_cons, hpa]
    · have hpb : p b = false := by
        cases hpb : p b
        · rfl
        · exact absurd (h b (List.mem_cons_self b l) hpb) hr
      simp only [List.orderedInsert, if_neg hr, List.filter_cons, hpb]
      simp only [Bool.false_eq_true, if_false]
      exact ih (fun c hc hpc => h c (List.mem_cons_of_mem b hc) hpc)

theorem filter_insertionSort {α : Type} (r : α → α → Prop) [DecidableRel r]
    (p : α → Bool) (h : ∀ a b, p a = true → p b = true → r a b) (l : List α) :
    (l.insertionSort r).filter p = l.filter p := by
  induction l with
  | nil => simp [List.insertionSort]
  | cons a l ih =>
    simp only [List.insertionSort]
    by_cases hpa : p a = true
    · rw [filter_orderedInsert_pos r p a _ hpa
        (fun b _ hpb => h a b hpa hpb)]
      simp [List.filter_cons, hpa, ih]
    · have hpa' : p a = false := Bool.not_eq_true _ ▸ Bool.of_not_eq_true hpa
      rw [filter_orderedInsert_neg r p a _ hpa']
      simp [List.filter_cons, hpa', ih]

/-! ### Properties of the issue-string deduplication -/

theorem dedupByIssue_sublist (l : List Conflict) : ∀ (seen : List String),
    List.Sublist (dedupByIssue l seen) l := by
  induction l with
  | nil => intro seen; exact List.Sublist.refl []
  | cons c rest ih =>
    intro seen
    simp only [dedupByIssue]
    by_cases hseen : c.issue ∈ seen
    · rw [if_pos hseen]
      exact (ih seen).cons c
    · rw [if_neg hseen]
      exact (ih (c.issue :: seen)).cons₂ c

/-- Every kept finding is the first occurrence of its issue string. -/
theorem dedupByIssue_first (l : List Conflict) : ∀ (seen : List String) (d : Conflict),
    d ∈ dedupByIssue l seen → d.issue ∉ seen ∧
      l.find? (fun c => c.issue == d.issue) = some d := by
  induction l with
  | nil => intro seen d hd; simp [dedupByIssue] at hd
  | cons c rest ih =>
    intro seen d hd
    simp only [dedupByIssue] at hd
    by_cases hseen : c.issue ∈ seen
    · rw [if_pos hseen] at hd
      obtain ⟨hns, hfind⟩ := ih seen d hd
      have hne : c.issue ≠ d.issue := fun h => hns (h ▸ hseen)
      refine ⟨hns, ?_⟩
      rw [List.find?_cons_of_neg, hfind]
      simpa using hne
    · rw [if_neg hseen] at hd
      rcases List.mem_cons.mp hd with hd | hd
      · subst hd
        exact ⟨hseen, by simp [List.find?_cons_of_pos]⟩
      · obtain ⟨hns, hfind⟩ := ih (c.issue :: seen) d hd
        have hne : c.issue ≠ d.issue := fun h => hns (by simp [h])
        refine ⟨fun h => hns (List.mem_cons_of_mem _ h), ?_⟩
        rw [List.find?_cons_of_neg, hfind]
        simpa using hne

/-- Every issue string of the input survives deduplication (or was seen). -/
theorem dedupByIssue_covers (l : List Conflict) : ∀ (seen : List String) (c : Conflict),
    c ∈ l → c.issue ∈ seen ∨ ∃ d ∈ dedupByIssue l seen, d.issue = c.issue := by
  induction l with
  | nil => intro seen c hc; simp at hc
  | cons b rest ih =>
    intro seen c hc
    simp only [dedupByIssue]
    rcases List.mem_cons.mp hc with hc | hc
    · subst hc
      by_cases hseen : c.issue ∈ seen
      · exact Or.inl hseen
      · right
        refine ⟨c, ?_, rfl⟩
        simp [if_neg hseen]
    · by_cases hseen : b.issue ∈ seen
      · rcases ih seen c hc with h | ⟨d, hd, hdi⟩
        · exact Or.inl h
        · exact Or.inr ⟨d, by simp [if_pos hseen, hd], hdi⟩
      · rcases ih (b.issue :: seen) c hc with h | ⟨d, hd, hdi⟩
        · rcases List.mem_cons.mp h with h | h
          · exact Or.inr ⟨b, by simp [if_neg hseen], h.symm⟩
          · exact Or.inl h
        · exact Or.inr ⟨d, by simp [if_neg hseen, hd], hdi⟩

/-- The deduplicated list has pairwise distinct issue strings. -/
theorem dedupByIssue_nodup (l : List Conflict) : ∀ (seen : List String),
    ((dedupByIssue l seen).map Conflict.issue).Nodup := by
  induction l with
  | nil => intro seen; simp [dedupByIssue]
  | cons c rest ih =>
    intro seen
    simp only [dedupByIssue]
    by_cases hseen : c.issue ∈ seen
    · rw [if_pos hseen]; exact ih seen
    · rw [if_neg hseen]
      simp only [List.map_cons, List.nodup_cons]
      refine ⟨?_, ih (c.issue :: seen)⟩
      intro hmem
      obtain ⟨d, hd, hdc⟩ := List.mem_map.mp hmem
      exact (dedupByIssue_first rest (c.issue :: seen) d hd).1 (by simp [hdc])

/-- When the input has no duplicate issue (none already seen), dedup is the
identity. -/
theorem dedupByIssue_of_nodup (l : List Conflict) : ∀ (seen : List String),
    (l.map Conflict.issue).Nodup → (∀ c ∈ l, c.issue ∉ seen) →
    dedupByIssue l seen = l := by
  induction l with
  | nil => intro seen _ _; rfl
  | cons c rest ih =>
    intro seen hnd hns
    simp only [dedupByIssue, if_neg (hns c (List.mem_cons_self c rest))]
    congr 1
    refine ih (c.issue :: seen) ((List.nodup_cons.mp (by simpa using hnd)).2) ?_
    intro b hb
    simp only [List.mem_cons]
    push_neg
    refine ⟨?_, hns b (List.mem_cons_of_mem c hb)⟩
    intro h
    exact (List.nodup_cons.mp (by simpa using hnd)).1 (h ▸ List.mem_map_of_mem Conflict.issue hb)

/-! ### Concrete tables used to instantiate theorems with hypotheses -/

/-- A pilot On Leave while still assigned to mission M1. -/
def pAlice : Pilot :=
  ⟨"P1", "Alice", "Mapping, Survey", "DGCA, Night", "Mumbai", "On Leave", "M1", "2025-01-01"⟩

/-- An Available pilot in Mumbai with a DGCA certification. -/
def pBob : Pilot := ⟨"P2", "Bob", "Mapping", "DGCA", "Mumbai", "Available", "–", "2025-01-01"⟩

/-- A pilot Unavailable while still assigned to mission M2. -/
def pCara : Pilot := ⟨"P3", "Cara", "Thermal", "DGCA", "Delhi", "Unavailable", "M2", "2025-01-01"⟩

/-- An urgent mission in Mumbai. -/
def mOne : Mission :=
  ⟨"M1", "Acme", "Mumbai", "Mapping", "DGCA", "2025-01-01", "2025-01-02", "Urgent"⟩

/-- A low-priority mission in Delhi. -/
def mTwo : Mission :=
  ⟨"M2", "Bcme", "Delhi", "Thermal, Mapping", "DGCA, Advanced", "2025-01-01", "2025-01-02", "Low"⟩

/-- A drone in Maintenance while still assigned to mission M1. -/
def dOne : Drone := ⟨"D1", "Mavic", "Mapping", "Mumbai", "Maintenance", "M1", "2025-06-01"⟩

/-- A small database exercising several detectors at once. -/
def dbW : DB := ⟨[pAlice, pBob, pCara], [dOne], [mOne, mTwo]⟩

/-- Two distinct pilots (different ids) sharing the same name and the same
live assignment while On Leave: their issue strings collide. -/
def dbDup : DB :=
  ⟨[⟨"P1", "Alex", "Mapping", "DGCA", "Mumbai", "On Leave", "M1", "2025-01-01"⟩,
    ⟨"P2", "Alex", "Survey", "DGCA", "Delhi", "On Leave", "M1", "2025-01-01"⟩], [], []⟩

/-- Does a finding have the given type and refer to the given pilot id? -/
def isTypeFor (t pid : String) (c : Conflict) : Bool :=
  c.ctype == t && c.pilot_id == some pid

/-- C1: `get_all_conflicts` feeds the concatenated detector outputs
(`allConflicts`) through the issue-string dedup keeping first occurrences
(the dedup result is a sublist of the input, has pairwise-distinct issues,
keeps exactly the first occurrence of each issue, and covers every issue),
and returns it sorted with non-decreasing severity rank
(CRITICAL 0 < HIGH 1 < MEDIUM 2 < LOW 3), ties preserving the
post-deduplication order (equal-rank findings filter to the same list
before and after sorting). -/
theorem get_all_conflicts_spec (db : DB) :
    (get_all_conflicts db).Pairwise sevLe ∧
    (get_all_conflicts db).Perm (dedupByIssue (allConflicts db) []) ∧
    (∀ k : Nat, (get_all_conflicts db).filter (fun c => sevRank c.severity == k) =
      (dedupByIssue (allConflicts db) []).filter (fun c => sevRank c.severity == k)) ∧
    List.Sublist (dedupByIssue (allConflicts db) []) (allConflicts db) ∧
    ((dedupByIssue (allConflicts db) []).map Conflict.issue).Nodup ∧
    (∀ d ∈ dedupByIssue (allConflicts db) [],
      (allConflicts db).find? (fun c => c.issue == d.issue) = some d) ∧
    (∀ c ∈ allConflicts db, ∃ d ∈ dedupByIssue (allConflicts db) [], d.issue = c.issue) := by
  refine ⟨?_, List.perm_insertionSort sevLe _, ?_, dedupByIssue_sublist _ _,
    dedupByIssue_nodup _ _, ?_, ?_⟩
  · haveI : IsTotal Conflict sevLe := ⟨fun a b => Nat.le_total _ _⟩
    haveI : IsTrans Conflict sevLe := ⟨fun a b c hab hbc => Nat.le_trans hab hbc⟩
    exact List.sorted_insertionSort sevLe _
  · intro k
    refine filter_insertionSort sevLe _ (fun a b ha hb => ?_) _
    simp only [beq_iff_eq] at ha hb
    unfold sevLe
    omega
  · intro d hd
    exact (dedupByIssue_first _ _ d hd).2
  · intro c hc
    rcases dedupByIssue_covers _ [] c hc with h | h
    · simp at h
    · exact h

/-- Instantiation of `get_all_conflicts_spec` at a concrete database,
with the inner quantified parts discharged at concrete findings. -/
theorem get_all_conflicts_spec_witness :
    (get_all_conflicts dbW).Pairwise sevLe ∧
    ((get_all_conflicts dbW).filter (fun c => sevRank c.severity == 1) =
      (dedupByIssue (allConflicts dbW) []).filter (fun c => sevRank c.severity == 1)) := by
  refine ⟨(get_all_conflicts_spec dbW).1, (get_all_conflicts_spec dbW).2.2.1 1⟩

/-! ### Shape of the detector outputs (conflict types per detector) -/

theorem skill_mismatch_ctype (pilots : List Pilot) (missions : List Mission) :
    ∀ c ∈ detect_skill_mismatch pilots missions, c.ctype = "Skill Mismatch" := by
  intro c hc
  simp only [detect_skill_mismatch, List.mem_flatMap] at hc
  obtain ⟨p, _, hc⟩ := hc
  split at hc
  · simp at hc
  · split at hc
    · simp at hc
    · split at hc
      · simp at hc
      · simp only [List.mem_singleton] at hc
        subst hc
        rfl

theorem cert_mismatch_ctype (pilots : List Pilot) (missions : List Mission) :
    ∀ c ∈ detect_certification_mismatch pilots missions, c.ctype = "Certification Mismatch" := by
  intro c hc
  simp only [detect_certification_mismatch, List.mem_flatMap] at hc
  obtain ⟨p, _, hc⟩ := hc
  split at hc
  · simp at hc
  · split at hc
    · simp at hc
    · split at hc
      · simp at hc
      · simp only [List.mem_singleton] at hc
        subst hc
        rfl

theorem location_mismatch_ctype (pilots : List Pilot) (drones : List Drone)
    (missions : List Mission) :
    ∀ c ∈ detect_location_mismatch pilots drones missions,
      c.ctype = "Pilot Location Mismatch" ∨ c.ctype = "Drone Location Mismatch" := by
  intro c hc
  simp only [detect_location_mismatch, List.mem_append, List.mem_flatMap] at hc
  rcases hc with ⟨p, _, hc⟩ | ⟨d, _, hc⟩
  · left
    split at hc
    · simp at hc
    · split at hc
      · simp at hc
      · split at hc
        · simp only [List.mem_singleton] at hc
          subst hc
          rfl
        · simp at hc
  · right
    split at hc
    · simp at hc
    · split at hc
      · simp at hc
      · split at hc
        · simp only [List.mem_singleton] at hc
          subst hc
          rfl
        · simp at hc

theorem maintenance_conflict_ctype (drones : List Drone) :
    ∀ c ∈ detect_maintenance_conflict drones, c.ctype = "Maintenance Conflict" := by
  intro c hc
  simp only [detect_maintenance_conflict, List.mem_flatMap] at hc
  obtain ⟨d, _, hc⟩ := hc
  split at hc
  · simp only [List.mem_singleton] at hc
    subst hc
    rfl
  · simp at hc

theorem urgent_conflict_ctype (pilots : List Pilot) (missions : List Mission) :
    ∀ c ∈ detect_urgent_mission_conflicts pilots missions,
      c.ctype = "Urgent Mission - Pilot On Leave" := by
  intro c hc
  simp only [detect_urgent_mission_conflicts, List.mem_flatMap] at hc
  obtain ⟨m, _, hc⟩ := hc
  split at hc
  · simp only [List.mem_flatMap] at hc
    obtain ⟨p, _, hc⟩ := hc
    split at hc
    · simp only [List.mem_singleton] at hc
      subst hc
      rfl
    · simp at hc
  · simp at hc

/-! ### Counting findings per pilot -/

theorem countP_flatMap_zero {α : Type} (f : α → List Conflict) (pred : Conflict → Bool)
    (l : List α) (h : ∀ a ∈ l, (f a).countP pred = 0) : (l.flatMap f).countP pred = 0 := by
  induction l with
  | nil => simp
  | cons a rest ih =>
    rw [List.flatMap_cons, List.countP_append, h a (List.mem_cons_self a rest),
      ih (fun b hb => h b (List.mem_cons_of_mem a hb))]

/-- If each row contributes the matching finding exactly when a decidable
row condition holds and the row carries the pilot id, and ids are unique,
then a qualifying pilot is counted exactly once over the whole table. -/
theorem countP_flatMap_unique {α : Type} (key : α → String) (f : α → List Conflict)
    (pred : Conflict → Bool) (cond : α → Prop) [DecidablePred cond] (pid : String)
    (hcount : ∀ q, (f q).countP pred = if key q = pid ∧ cond q then 1 else 0) :
    ∀ (l : List α), (l.map key).Nodup → ∀ p ∈ l, key p = pid → cond p →
      (l.flatMap f).countP pred = 1 := by
  intro l
  induction l with
  | nil => intro _ p hp; simp at hp
  | cons q rest ih =>
    intro hnd p hp hkey hcond
    rw [List.map_cons, List.nodup_cons] at hnd
    have hnd' := hnd
    rw [List.flatMap_cons, List.countP_append]
    rcases List.mem_cons.mp hp with hp | hp
    · subst hp
      rw [hcount, if_pos ⟨hkey, hcond⟩]
      have hzero : (rest.flatMap f).countP pred = 0 := by
        apply countP_flatMap_zero
        intro b hb
        rw [hcount]
        apply if_neg
        rintro ⟨hb', _⟩
        exact hnd'.1 (hkey ▸ hb' ▸ List.mem_map_of_mem key hb)
      rw [hzero]
    · have hq0 : (f q).countP pred = 0 := by
        rw [hcount]
        apply if_neg
        rintro ⟨hq, _⟩
        exact hnd'.1 (hq ▸ hkey ▸ List.mem_map_of_mem key hp)
      rw [hq0, ih hnd'.2 p hp hkey hcond]

theorem bookRow_countP_on_leave (q : Pilot) (pid : String) :
    (bookRow q).countP (isTypeFor "Pilot On Leave but Assigned" pid) =
      if q.pilot_id = pid ∧ (q.status = "On Leave" ∧ q.current_assignment ≠ sentinel)
      then 1 else 0 := by
  have hne : (("Pilot Unavailable but Assigned" : String) ==
      ("Pilot On Leave but Assigned" : String)) = false := by decide
  unfold bookRow
  by_cases h1 : q.status = "On Leave" ∧ q.current_assignment ≠ sentinel
  · rw [if_pos h1]
    have h2 : ¬(q.status = "Unavailable" ∧ q.current_assignment ≠ sentinel) := by
      rintro ⟨h, _⟩
      rw [h1.1] at h
      exact absurd h (by decide)
    rw [if_neg h2]
    by_cases h3 : q.pilot_id = pid
    · simp [isTypeFor, h3, h1]
    · simp [isTypeFor, h3, h1]
  · rw [if_neg h1]
    have hrhs : ¬(q.pilot_id = pid ∧ q.status = "On Leave" ∧ q.current_assignment ≠ sentinel) :=
      fun h => h1 h.2
    rw [if_neg hrhs]
    simp only [List.nil_append]
    split
    · simp [isTypeFor, hne]
    · rfl

theorem bookRow_countP_unavailable (q : Pilot) (pid : String) :
    (bookRow q).countP (isTypeFor "Pilot Unavailable but Assigned" pid) =
      if q.pilot_id = pid ∧ (q.status = "Unavailable" ∧ q.current_assignment ≠ sentinel)
      then 1 else 0 := by
  have hne : (("Pilot On Leave but Assigned" : String) ==
      ("Pilot Unavailable but Assigned" : String)) = false := by decide
  unfold bookRow
  by_cases h1 : q.status = "Unavailable" ∧ q.current_assignment ≠ sentinel
  · have h2 : ¬(q.status = "On Leave" ∧ q.current_assignment ≠ sentinel) := by
      rintro ⟨h, _⟩
      rw [h1.1] at h
      exact absurd h (by decide)
    rw [if_pos h1, if_neg h2]
    by_cases h3 : q.pilot_id = pid
    · simp [isTypeFor, h3, h1]
    · simp [isTypeFor, h3, h1]
  · rw [if_neg h1]
    have hrhs : ¬(q.pilot_id = pid ∧ q.status = "Unavailable" ∧ q.current_assignment ≠ sentinel) :=
      fun h => h1 h.2
    rw [if_neg hrhs, List.countP_append]
    split
    · simp [isTypeFor, hne]
    · rfl

theorem countP_isTypeFor_zero_of_ctype (l : List Conflict) (t pid : String)
    (h : ∀ c ∈ l, c.ctype ≠ t) : l.countP (isTypeFor t pid) = 0 := by
  rw [List.countP_eq_zero]
  intro c hc
  simp only [isTypeFor, Bool.and_eq_true, beq_iff_eq]
  rintro ⟨h1, _⟩
  exact h c hc h1

/-- C2 (amended): for every pilot On Leave / Unavailable with a live
assignment, `get_all_conflicts` contains exactly one finding of the
corresponding type for that pilot, provided pilot ids are unique and no two
findings collide on their issue string (pilots sharing both name and
assignment produce identical issue strings and are collapsed by the dedup,
see the counterexample). -/
theorem get_all_conflicts_one_per_pilot (db : DB)
    (hids : (db.pilots.map Pilot.pilot_id).Nodup)
    (hiss : ((allConflicts db).map Conflict.issue).Nodup) :
    ∀ p ∈ db.pilots, p.current_assignment ≠ sentinel →
      (p.status = "On Leave" →
        (get_all_conflicts db).countP
          (isTypeFor "Pilot On Leave but Assigned" p.pilot_id) = 1) ∧
      (p.status = "Unavailable" →
        (get_all_conflicts db).countP
          (isTypeFor "Pilot Unavailable but Assigned" p.pilot_id) = 1) := by
  intro p hp hca
  have hper : ∀ pred : Conflict → Bool,
      (get_all_conflicts db).countP pred = (allConflicts db).countP pred := by
    intro pred
    unfold get_all_conflicts
    rw [(List.perm_insertionSort sevLe _).countP_eq pred,
      dedupByIssue_of_nodup _ [] hiss (by simp)]
  have hz : ∀ (l : List Conflict) (t pid : String), (∀ c ∈ l, c.ctype ≠ t) →
      l.countP (isTypeFor t pid) = 0 := countP_isTypeFor_zero_of_ctype
  constructor
  · intro hst
    rw [hper]
    unfold allConflicts
    rw [List.countP_append, List.countP_append, List.countP_append, List.countP_append,
      List.countP_append]
    have h1 : (detect_pilot_double_booking db.pilots).countP
        (isTypeFor "Pilot On Leave but Assigned" p.pilot_id) = 1 := by
      unfold detect_pilot_double_booking
      exact countP_flatMap_unique Pilot.pilot_id bookRow _
        (fun q => q.status = "On Leave" ∧ q.current_assignment ≠ sentinel) p.pilot_id
        (fun q => bookRow_countP_on_leave q p.pilot_id) db.pilots hids p hp rfl ⟨hst, hca⟩
    rw [h1,
      hz _ _ _ (fun c hc => by rw [skill_mismatch_ctype _ _ c hc]; decide),
      hz _ _ _ (fun c hc => by rw [cert_mismatch_ctype _ _ c hc]; decide),
      hz _ _ _ (fun c hc => by
        rcases location_mismatch_ctype _ _ _ c hc with h | h <;> rw [h] <;> decide),
      hz _ _ _ (fun c hc => by rw [maintenance_conflict_ctype _ c hc]; decide),
      hz _ _ _ (fun c hc => by rw [urgent_conflict_ctype _ _ c hc]; decide)]
  · intro hst
    rw [hper]
    unfold allConflicts
    rw [List.countP_append, List.countP_append, List.countP_append, List.countP_append,
      List.countP_append]
    have h1 : (detect_pilot_double_booking db.pilots).countP
        (isTypeFor "Pilot Unavailable but Assigned" p.pilot_id) = 1 := by
      unfold detect_pilot_double_booking
      exact countP_flatMap_unique Pilot.pilot_id bookRow _
        (fun q => q.status = "Unavailable" ∧ q.current_assignment ≠ sentinel) p.pilot_id
        (fun q => bookRow_countP_unavailable q p.pilot_id) db.pilots hids p hp rfl ⟨hst, hca⟩
    rw [h1,
      hz _ _ _ (fun c hc => by rw [skill_mismatch_ctype _ _ c hc]; decide),
      hz _ _ _ (fun c hc => by rw [cert_mismatch_ctype _ _ c hc]; decide),
      hz _ _ _ (fun c hc => by
        rcases location_mismatch_ctype _ _ _ c hc with h | h <;> rw [h] <;> decide),
      hz _ _ _ (fun c hc => by rw [maintenance_conflict_ctype _ c hc]; decide),
      hz _ _ _ (fun c hc => by rw [urgent_conflict_ctype _ _ c hc]; decide)]

/-- C2 counterexample: in `dbDup`, two distinct On-Leave-and-assigned pilots
share name and assignment; the finding of the second pilot is dropped by
the issue-string dedup, so `get_all_conflicts` carries no finding for it. -/
theorem get_all_conflicts_one_per_pilot_cex :
    ∃ p ∈ dbDup.pilots, p.status = "On Leave" ∧ p.current_assignment ≠ sentinel ∧
      (get_all_conflicts dbDup).countP
        (isTypeFor "Pilot On Leave but Assigned" p.pilot_id) = 0 := by decide

/-- Instantiation of `get_all_conflicts_one_per_pilot` at a concrete
database with all hypotheses discharged. -/
theorem get_all_conflicts_one_per_pilot_witness :
    (get_all_conflicts dbW).countP (isTypeFor "Pilot On Leave but Assigned" "P1") = 1 ∧
    (get_all_conflicts dbW).countP (isTypeFor "Pilot Unavailable but Assigned" "P3") = 1 := by
  constructor
  · exact (get_all_conflicts_one_per_pilot dbW (by decide) (by decide) pAlice (by decide)
      (by decide)).1 (by decide)
  · exact (get_all_conflicts_one_per_pilot dbW (by decide) (by decide) pCara (by decide)
      (by decide)).2 (by decide)

/-! ### Candidate ranking (`find_best_pilot_for_mission`) -/

theorem candidateOf_eq_some (rs rc loc : String) (p : Pilot) (c : Candidate)
    (h : candidateOf rs rc loc p = some c) :
    c.pilot_id = p.pilot_id ∧ c.name = p.name ∧
    c.skills_match = (splitTrim rs).countP (fun s => (splitTrim p.skills).contains s) ∧
    c.cert_match = (splitTrim rc).countP (fun s => (splitTrim p.certifications).contains s) ∧
    c.cert_match = (splitTrim rc).length ∧
    0 < c.skills_match ∧
    c.location_match = (if p.location = loc then 1 else 0) ∧
    c.score2 = c.skills_match * 4 + c.cert_match * 3 + c.location_match := by
  simp only [candidateOf] at h
  split at h
  · rename_i hcond
    injection h with h
    subst h
    exact ⟨rfl, rfl, rfl, rfl, hcond.2, hcond.1, rfl, rfl⟩
  · exact Option.noConfusion h

/-- C3: `find_best_pilot_for_mission` considers only Available pilots,
rejects every pilot missing a required certification, requires a skill
overlap among survivors, scores each survivor
`skill_match*2 + cert_match*1.5 + (0.5 if location matches else 0)`
(stored doubled in `score2`), and returns the survivors sorted by score
descending with ties keeping original table order (the filter by any fixed
score is unchanged by the sort). -/
theorem find_best_pilot_spec (pilots : List Pilot)
    (required_skills required_certs location : String) :
    (∀ c ∈ find_best_pilot_for_mission pilots required_skills required_certs location,
      ∃ p ∈ pilots, p.status = "Available" ∧ c.pilot_id = p.pilot_id ∧ c.name = p.name ∧
        (∀ cert ∈ splitTrim required_certs, cert ∈ splitTrim p.certifications) ∧
        (∃ s ∈ splitTrim required_skills, s ∈ splitTrim p.skills) ∧
        c.skills_match = (splitTrim required_skills).countP
          (fun s => (splitTrim p.skills).contains s) ∧
        c.cert_match = (splitTrim required_certs).length ∧
        c.location_match = (if p.location = location then 1 else 0) ∧
        (c.score2 : ℚ) / 2 =
          (c.skills_match : ℚ) * 2 + (c.cert_match : ℚ) * 1.5 + (c.location_match : ℚ) * 0.5) ∧
    (find_best_pilot_for_mission pilots required_skills required_certs location).Pairwise
      scoreGe ∧
    (∀ s : Nat,
      (find_best_pilot_for_mission pilots required_skills required_certs location).filter
          (fun c => c.score2 == s) =
        (eligibleCandidates pilots required_skills required_certs location).filter
          (fun c => c.score2 == s)) := by
  refine ⟨?_, ?_, ?_⟩
  · intro c hc
    rw [find_best_pilot_for_mission, List.mem_insertionSort] at hc
    rw [eligibleCandidates, List.mem_filterMap] at hc
    obtain ⟨p, hpmem, hpc⟩ := hc
    rw [List.mem_filter] at hpmem
    obtain ⟨hpmem, hpav⟩ := hpmem
    rw [beq_iff_eq] at hpav
    obtain ⟨h1, h2, h3, h4, h5, h6, h7, h8⟩ := candidateOf_eq_some _ _ _ _ _ hpc
    refine ⟨p, hpmem, hpav, h1, h2, ?_, ?_, h3, h5, h7, ?_⟩
    · intro cert hcert
      have hall := (List.countP_eq_length.mp (h4 ▸ h5)) cert hcert
      simpa using hall
    · have hpos : 0 < (splitTrim required_skills).countP
          (fun s => (splitTrim p.skills).contains s) := h3 ▸ h6
      obtain ⟨s, hs, hmem⟩ := List.countP_pos_iff.mp hpos
      exact ⟨s, hs, by simpa using hmem⟩
    · rw [h8]
      push_cast
      ring_nf
  · haveI : IsTotal Candidate scoreGe := ⟨fun a b => Nat.le_total b.score2 a.score2⟩
    haveI : IsTrans Candidate scoreGe := ⟨fun a b c hab hbc => Nat.le_trans hbc hab⟩
    exact List.sorted_insertionSort scoreGe _
  · intro s
    refine filter_insertionSort scoreGe _ (fun a b ha hb => ?_) _
    simp only [beq_iff_eq] at ha hb
    unfold scoreGe
    omega

/-- Instantiation of `find_best_pilot_spec` at a concrete roster: the
returned candidate for Bob is backed by an Available pilot holding every
required certification, with the documented score. -/
theorem find_best_pilot_spec_witness :
    ∃ p ∈ [pAlice, pBob, pCara], p.status = "Available" ∧
      (⟨"P2", "Bob", 8, 1, 1, 1⟩ : Candidate).pilot_id = p.pilot_id ∧
      (⟨"P2", "Bob", 8, 1, 1, 1⟩ : Candidate).name = p.name ∧
      (∀ cert ∈ splitTrim "DGCA", cert ∈ splitTrim p.certifications) ∧
      (∃ s ∈ splitTrim "Mapping", s ∈ splitTrim p.skills) ∧
      (⟨"P2", "Bob", 8, 1, 1, 1⟩ : Candidate).skills_match =
        (splitTrim "Mapping").countP (fun s => (splitTrim p.skills).contains s) ∧
      (⟨"P2", "Bob", 8, 1, 1, 1⟩ : Candidate).cert_match = (splitTrim "DGCA").length ∧
      (⟨"P2", "Bob", 8, 1, 1, 1⟩ : Candidate).location_match =
        (if p.location = "Mumbai" then 1 else 0) ∧
      (((⟨"P2", "Bob", 8, 1, 1, 1⟩ : Candidate).score2 : ℚ) / 2 =
        ((⟨"P2", "Bob", 8, 1, 1, 1⟩ : Candidate).skills_match : ℚ) * 2 +
        ((⟨"P2", "Bob", 8, 1, 1, 1⟩ : Candidate).cert_match : ℚ) * 1.5 +
        ((⟨"P2", "Bob", 8, 1, 1, 1⟩ : Candidate).location_match : ℚ) * 0.5) :=
  (find_best_pilot_spec [pAlice, pBob, pCara] "Mapping" "DGCA" "Mumbai").1
    ⟨"P2", "Bob", 8, 1, 1, 1⟩ (by decide)

/-! ### Replacement search (`find_best_replacement_pilot`) -/

/-- The pilots `find_best_replacement_pilot` actually scores: the location
pool further restricted to holders of a lowercased "dgca" certification. -/
def replCandidates (db : DB) (m : Mission) : List Pilot :=
  (replPool db m).filter (fun p => decide ("dgca" ∈ splitTrimLower p.certifications))

/-- A fold whose body ignores elements failing a guard equals the fold of
the bare body over the filtered list. -/
theorem foldl_guard_filter {α β : Type} (g : α → Prop) [DecidablePred g] (f : β → α → β) :
    ∀ (l : List α) (b : β),
      l.foldl (fun acc a => if g a then f acc a else acc) b =
        (l.filter (fun a => decide (g a))).foldl f b := by
  intro l
  induction l with
  | nil => intro b; rfl
  | cons a rest ih =>
    intro b
    rw [List.foldl_cons, List.filter_cons]
    by_cases hg : g a
    · rw [if_pos hg, if_pos (by simpa using hg), List.foldl_cons]
      exact ih (f b a)
    · rw [if_neg hg, if_neg (by simpa using hg)]
      exact ih b

/-- The running-best fold keeps the accumulator when nothing beats it, and
otherwise returns the first element attaining the maximum (strictly above
everything before it, at least everything after it). -/
theorem foldl_argmax_spec {α : Type} (f : α → Int) :
    ∀ (l : List α) (accP : Option α) (accS : Int),
      ((∀ a ∈ l, f a ≤ accS) →
        l.foldl (fun acc a => if acc.2 < f a then (some a, f a) else acc) (accP, accS) =
          (accP, accS)) ∧
      ((∃ a ∈ l, accS < f a) →
        ∃ p l1 l2, l = l1 ++ p :: l2 ∧
          l.foldl (fun acc a => if acc.2 < f a then (some a, f a) else acc) (accP, accS) =
            (some p, f p) ∧
          accS < f p ∧ (∀ q ∈ l1, f q < f p) ∧ (∀ q ∈ l2, f q ≤ f p)) := by
  intro l
  induction l with
  | nil =>
    intro accP accS
    exact ⟨fun _ => rfl, fun ⟨a, ha, _⟩ => absurd ha (by simp)⟩
  | cons a rest ih =>
    intro accP accS
    constructor
    · intro h
      rw [List.foldl_cons, if_neg (not_lt.mpr (h a (List.mem_cons_self a rest)))]
      exact (ih accP accS).1 (fun b hb => h b (List.mem_cons_of_mem a hb))
    · intro hex
      rw [List.foldl_cons]
      by_cases hlt : accS < f a
      · rw [if_pos hlt]
        by_cases hall : ∀ b ∈ rest, f b ≤ f a
        · exact ⟨a, [], rest, by simp, (ih (some a) (f a)).1 hall, hlt, by simp, hall⟩
        · push_neg at hall
          obtain ⟨b, hb, hba⟩ := hall
          obtain ⟨p, l1, l2, hsplit, hfold, hgt, hl1, hl2⟩ :=
            (ih (some a) (f a)).2 ⟨b, hb, hba⟩
          refine ⟨p, a :: l1, l2, by rw [List.cons_append, hsplit], hfold,
            lt_trans hlt hgt, ?_, hl2⟩
          intro q hq
          rcases List.mem_cons.mp hq with rfl | hq
          · exact hgt
          · exact hl1 q hq
      · rw [if_neg hlt]
        have hrest : ∃ b ∈ rest, accS < f b := by
          obtain ⟨b, hb, hsb⟩ := hex
          rcases List.mem_cons.mp hb with rfl | hb
          · exact absurd hsb hlt
          · exact ⟨b, hb, hsb⟩
        obtain ⟨p, l1, l2, hsplit, hfold, hgt, hl1, hl2⟩ := (ih accP accS).2 hrest
        refine ⟨p, a :: l1, l2, by rw [List.cons_append, hsplit], hfold, hgt, ?_, hl2⟩
        intro q hq
        rcases List.mem_cons.mp hq with rfl | hq
        · exact lt_of_le_of_lt (not_lt.mp hlt) hgt
        · exact hl1 q hq

theorem replScore_nonneg (m : Mission) (p : Pilot) : 0 ≤ replScore m p := by
  unfold replScore
  positivity

/-- C4: `find_best_replacement_pilot` returns none for an unknown mission
or when no pilot qualifies; any returned pilot is an Available pilot at the
mission's exact location holding a (lowercased) "dgca" certification, and
is the candidate with the highest `skill_overlap*2 + cert_overlap` score,
earlier table rows winning ties. -/
theorem find_best_replacement_spec (db : DB) (mid : String) :
    (getMissionById db.missions mid = none → find_best_replacement_pilot db mid = none) ∧
    (∀ m, getMissionById db.missions mid = some m →
      (replCandidates db m = [] → find_best_replacement_pilot db mid = none) ∧
      (∀ p, find_best_replacement_pilot db mid = some p →
        p ∈ db.pilots ∧ p.status = "Available" ∧ p.location = m.location ∧
        "dgca" ∈ splitTrimLower p.certifications ∧
        ∃ l1 l2, replCandidates db m = l1 ++ p :: l2 ∧
          (∀ q ∈ l1, replScore m q < replScore m p) ∧
          (∀ q ∈ l2, replScore m q ≤ replScore m p))) := by
  constructor
  · intro hnone
    simp only [find_best_replacement_pilot, hnone]
  · intro m hm
    have hfold : (replPool db m).foldl
        (fun acc p => if "dgca" ∈ splitTrimLower p.certifications then
          if acc.2 < replScore m p then (some p, replScore m p) else acc
        else acc) ((none : Option Pilot), (-1 : Int)) =
        (replCandidates db m).foldl
          (fun acc p => if acc.2 < replScore m p then (some p, replScore m p) else acc)
          ((none : Option Pilot), (-1 : Int)) :=
      foldl_guard_filter (fun p => "dgca" ∈ splitTrimLower p.certifications)
        (fun acc p => if acc.2 < replScore m p then (some p, replScore m p) else acc)
        (replPool db m) ((none : Option Pilot), (-1 : Int))
    constructor
    · intro hcand
      simp only [find_best_replacement_pilot, hm]
      split
      · rfl
      · rw [hfold, hcand]
        rfl
    · intro p hp
      simp only [find_best_replacement_pilot, hm] at hp
      split at hp
      · exact Option.noConfusion hp
      · rw [hfold] at hp
        by_cases hcand : replCandidates db m = []
        · rw [hcand] at hp
          exact Option.noConfusion hp
        · obtain ⟨a, ha⟩ := List.exists_mem_of_ne_nil _ hcand
          have hex : ∃ a ∈ replCandidates db m, (-1 : Int) < replScore m a :=
            ⟨a, ha, lt_of_lt_of_le (by norm_num) (replScore_nonneg m a)⟩
          obtain ⟨p', l1, l2, hsplit, hfold', hgt, hl1, hl2⟩ :=
            (foldl_argmax_spec (replScore m) (replCandidates db m) none (-1)).2 hex
          rw [hfold'] at hp
          simp only at hp
          injection hp with hp
          subst hp
          have hmem : p' ∈ replCandidates db m := hsplit ▸ List.mem_append_right l1
            (List.mem_cons_self p' l2)
          have hmem2 := hmem
          rw [replCandidates, List.mem_filter] at hmem2
          obtain ⟨hpool, hdgca⟩ := hmem2
          rw [replPool, List.mem_filter] at hpool
          obtain ⟨hpool, hloc⟩ := hpool
          rw [List.mem_filter] at hpool
          obtain ⟨hpilots, hstatus⟩ := hpool
          refine ⟨hpilots, by simpa using hstatus, by simpa using hloc,
            by simpa using hdgca, l1, l2, hsplit, hl1, hl2⟩

/-- Instantiation of `find_best_replacement_spec`: on the concrete tables,
mission M1's replacement is Bob, Available in Mumbai with DGCA, and the
top scorer of the candidate pool. -/
theorem find_best_replacement_spec_witness :
    pBob ∈ dbW.pilots ∧ pBob.status = "Available" ∧ pBob.location = mOne.location ∧
    "dgca" ∈ splitTrimLower pBob.certifications ∧
    ∃ l1 l2, replCandidates dbW mOne = l1 ++ pBob :: l2 ∧
      (∀ q ∈ l1, replScore mOne q < replScore mOne pBob) ∧
      (∀ q ∈ l2, replScore mOne q ≤ replScore mOne pBob) :=
  ((find_best_replacement_spec dbW "M1").2 mOne (by decide)).2 pBob (by decide)

/-! ### Frame conditions of the Entity Store updates -/

theorem update_pilot_status_not_found (pid st : String) (asg af : Option String) :
    ∀ (l : List Pilot), (∀ p ∈ l, p.pilot_id ≠ pid) →
      update_pilot_status l pid st asg af = (l, false) := by
  intro l
  induction l with
  | nil => intro _; rfl
  | cons p rest ih =>
    intro h
    rw [update_pilot_status, if_neg (h p (List.mem_cons_self p rest)),
      ih (fun q hq => h q (List.mem_cons_of_mem p hq))]

theorem update_pilot_status_found (pid st : String) (asg af : Option String) :
    ∀ (l1 : List Pilot) (row : Pilot) (l2 : List Pilot), row.pilot_id = pid →
      (∀ p ∈ l1, p.pilot_id ≠ pid) →
      update_pilot_status (l1 ++ row :: l2) pid st asg af =
        (l1 ++ applyPilotUpd row st asg af :: l2, true) := by
  intro l1
  induction l1 with
  | nil =>
    intro row l2 hrow _
    rw [List.nil_append, update_pilot_status, if_pos hrow, List.nil_append]
  | cons q l1 ih =>
    intro row l2 hrow h
    rw [List.cons_append, update_pilot_status,
      if_neg (h q (List.mem_cons_self q l1)),
      ih row l2 hrow (fun p hp => h p (List.mem_cons_of_mem q hp))]
    rfl

theorem applyPilotUpd_eq (row : Pilot) (st : String) (asg af : Option String) :
    applyPilotUpd row st asg af =
      { row with
        status := st
        current_assignment := if pyTruthy asg then asg.getD row.current_assignment
          else row.current_assignment
        available_from := if pyTruthy af then af.getD row.available_from
          else row.available_from } := by
  unfold applyPilotUpd
  by_cases h1 : pyTruthy asg = true
  · by_cases h2 : pyTruthy af = true
    · simp [h1, h2]
    · simp [h1, Bool.not_eq_true _ ▸ Bool.of_not_eq_true h2]
  · by_cases h2 : pyTruthy af = true
    · simp [Bool.not_eq_true _ ▸ Bool.of_not_eq_true h1, h2]
    · simp [Bool.not_eq_true _ ▸ Bool.of_not_eq_true h1,
        Bool.not_eq_true _ ▸ Bool.of_not_eq_true h2]

theorem update_drone_status_not_found (did st : String) (asg : Option String) :
    ∀ (l : List Drone), (∀ d ∈ l, d.drone_id ≠ did) →
      update_drone_status l did st asg = (l, false) := by
  intro l
  induction l with
  | nil => intro _; rfl
  | cons d rest ih =>
    intro h
    rw [update_drone_status, if_neg (h d (List.mem_cons_self d rest)),
      ih (fun q hq => h q (List.mem_cons_of_mem d hq))]

theorem update_drone_status_found (did st : String) (asg : Option String) :
    ∀ (l1 : List Drone) (row : Drone) (l2 : List Drone), row.drone_id = did →
      (∀ d ∈ l1, d.drone_id ≠ did) →
      update_drone_status (l1 ++ row :: l2) did st asg =
        (l1 ++ applyDroneUpd row st asg :: l2, true) := by
  intro l1
  induction l1 with
  | nil =>
    intro row l2 hrow _
    rw [List.nil_append, update_drone_status, if_pos hrow, List.nil_append]
  | cons q l1 ih =>
    intro row l2 hrow h
    rw [List.cons_append, update_drone_status,
      if_neg (h q (List.mem_cons_self q l1)),
      ih row l2 hrow (fun d hd => h d (List.mem_cons_of_mem q hd))]
    rfl

theorem applyDroneUpd_eq (row : Drone) (st : String) (asg : Option String) :
    applyDroneUpd row st asg =
      { row with
        status := st
        current_assignment := if pyTruthy asg then asg.getD row.current_assignment
          else row.current_assignment } := by
  unfold applyDroneUpd
  by_cases h1 : pyTruthy asg = true
  · simp [h1]
  · simp [Bool.not_eq_true _ ▸ Bool.of_not_eq_true h1]

/-- C10: `update_pilot_status` / `update_drone_status` touch only the first
row carrying the requested id: its status is overwritten, its assignment
(and for pilots `available_from`) only when the optional argument is a
truthy (present, non-empty) value; every other field and row is unchanged,
and an absent id yields `false` with the table untouched. -/
theorem update_status_frame_spec :
    (∀ (l : List Pilot) (pid st : String) (asg af : Option String),
      ((∀ p ∈ l, p.pilot_id ≠ pid) → update_pilot_status l pid st asg af = (l, false)) ∧
      (∀ l1 row l2, l = l1 ++ row :: l2 → row.pilot_id = pid →
        (∀ p ∈ l1, p.pilot_id ≠ pid) →
        update_pilot_status l pid st asg af =
          (l1 ++ { row with
            status := st
            current_assignment := if pyTruthy asg then asg.getD row.current_assignment
              else row.current_assignment
            available_from := if pyTruthy af then af.getD row.available_from
              else row.available_from } :: l2, true))) ∧
    (∀ (l : List Drone) (did st : String) (asg : Option String),
      ((∀ d ∈ l, d.drone_id ≠ did) → update_drone_status l did st asg = (l, false)) ∧
      (∀ l1 row l2, l = l1 ++ row :: l2 → row.drone_id = did →
        (∀ d ∈ l1, d.drone_id ≠ did) →
        update_drone_status l did st asg =
          (l1 ++ { row with
            status := st
            current_assignment := if pyTruthy asg then asg.getD row.current_assignment
              else row.current_assignment } :: l2, true))) := by
  constructor
  · intro l pid st asg af
    refine ⟨update_pilot_status_not_found pid st asg af l, ?_⟩
    intro l1 row l2 hsplit hrow h
    rw [hsplit, update_pilot_status_found pid st asg af l1 row l2 hrow h,
      applyPilotUpd_eq]
  · intro l did st asg
    refine ⟨update_drone_status_not_found did st asg l, ?_⟩
    intro l1 row l2 hsplit hrow h
    rw [hsplit, update_drone_status_found did st asg l1 row l2 hrow h,
      applyDroneUpd_eq]

/-- Instantiation of `update_status_frame_spec`: updating P2 in a two-row
table rewrites exactly the second row, and a missing id changes nothing. -/
theorem update_status_frame_spec_witness :
    update_pilot_status [pAlice, pBob] "P2" "Assigned" (some "M9") none =
      ([pAlice, { pBob with
        status := "Assigned"
        current_assignment := if pyTruthy (some "M9") then
          (some "M9").getD pBob.current_assignment else pBob.current_assignment
        available_from := if pyTruthy (none : Option String) then
          (none : Option String).getD pBob.available_from else pBob.available_from }], true) ∧
    update_pilot_status [pAlice, pBob] "P9" "Assigned" (some "M9") none =
      ([pAlice, pBob], false) :=
  ⟨(update_status_frame_spec.1 [pAlice, pBob] "P2" "Assigned" (some "M9") none).2
      [pAlice] pBob [] rfl rfl (by decide),
    (update_status_frame_spec.1 [pAlice, pBob] "P9" "Assigned" (some "M9") none).1
      (by decide)⟩

/-! ### Lookup-level consequences of the update operations -/

theorem applyPilotUpd_pilot_id (row : Pilot) (st : String) (asg af : Option String) :
    (applyPilotUpd row st asg af).pilot_id = row.pilot_id := by
  rw [applyPilotUpd_eq]

theorem getPilotById_decomp (l : List Pilot) (pid : String) (p : Pilot)
    (h : getPilotById l pid = some p) :
    p.pilot_id = pid ∧ ∃ l1 l2, l = l1 ++ p :: l2 ∧ ∀ q ∈ l1, q.pilot_id ≠ pid := by
  induction l with
  | nil => simp [getPilotById] at h
  | cons q rest ih =>
    rw [getPilotById] at h
    by_cases hq : (q.pilot_id == pid) = true
    · rw [List.find?_cons_of_pos (p := fun r : Pilot => r.pilot_id == pid) _ hq] at h
      injection h with h
      subst h
      exact ⟨beq_iff_eq.mp hq, [], rest, rfl, by simp⟩
    · rw [List.find?_cons_of_neg (p := fun r : Pilot => r.pilot_id == pid) _ hq] at h
      obtain ⟨hpid, l1, l2, hsplit, hl1⟩ := ih h
      refine ⟨hpid, q :: l1, l2, by rw [List.cons_append, hsplit], ?_⟩
      intro r hr
      rcases List.mem_cons.mp hr with rfl | hr
      · simpa using hq
      · exact hl1 r hr

theorem getPilotById_of_split (l1 : List Pilot) (row : Pilot) (l2 : List Pilot) (pid : String)
    (hrow : row.pilot_id = pid) (hl1 : ∀ q ∈ l1, q.pilot_id ≠ pid) :
    getPilotById (l1 ++ row :: l2) pid = some row := by
  rw [getPilotById, List.find?_append]
  have h1 : l1.find? (fun q => q.pilot_id == pid) = none := by
    rw [List.find?_eq_none]
    intro q hq
    simpa using hl1 q hq
  rw [h1, Option.none_or, List.find?_cons_of_pos _ (by simpa using hrow)]

theorem getPilotById_of_split_other (l1 : List Pilot) (row row' : Pilot) (l2 : List Pilot)
    (qid : String) (hrow : row.pilot_id = row'.pilot_id) (hne : row.pilot_id ≠ qid) :
    getPilotById (l1 ++ row :: l2) qid = getPilotById (l1 ++ row' :: l2) qid := by
  rw [getPilotById, getPilotById, List.find?_append, List.find?_append]
  congr 1
  rw [List.find?_cons_of_neg _ (by simpa using hne),
    List.find?_cons_of_neg _ (by simpa using (hrow ▸ hne))]

/-- Looking up the updated id after an update yields the rewritten row;
every other id resolves as before; the update reports `true`. -/
theorem getPilotById_update (l : List Pilot) (pid : String) (p : Pilot) (st : String)
    (asg af : Option String) (h : getPilotById l pid = some p) :
    (update_pilot_status l pid st asg af).2 = true ∧
    getPilotById (update_pilot_status l pid st asg af).1 pid =
      some (applyPilotUpd p st asg af) ∧
    (∀ qid, qid ≠ pid →
      getPilotById (update_pilot_status l pid st asg af).1 qid = getPilotById l qid) := by
  obtain ⟨hpid, l1, l2, rfl, hl1⟩ := getPilotById_decomp l pid p h
  rw [update_pilot_status_found pid st asg af l1 p l2 hpid hl1]
  refine ⟨rfl, ?_, ?_⟩
  · exact getPilotById_of_split l1 _ l2 pid (by rw [applyPilotUpd_pilot_id, hpid]) hl1
  · intro qid hqid
    exact getPilotById_of_split_other l1 _ p l2 qid (applyPilotUpd_pilot_id p st asg af)
      (by rw [applyPilotUpd_pilot_id, hpid]; exact fun hh => hqid hh.symm)

theorem applyPilotUpd_available_idem (q : Pilot) :
    applyPilotUpd (applyPilotUpd q "Available" (some sentinel) none) "Available"
      (some sentinel) none = applyPilotUpd q "Available" (some sentinel) none := by
  cases q
  rfl

/-- C8: marking a pilot available twice ends in the same state as once
(status Available, assignment back to the sentinel), and the second call
also reports success. -/
theorem mark_pilot_available_idempotent (l : List Pilot) (pid : String) (p : Pilot)
    (h : getPilotById l pid = some p) :
    (mark_pilot_available l pid).2.success = true ∧
    getPilotById (mark_pilot_available l pid).1 pid =
      some { p with status := "Available", current_assignment := sentinel } ∧
    (mark_pilot_available (mark_pilot_available l pid).1 pid).1 =
      (mark_pilot_available l pid).1 ∧
    (mark_pilot_available (mark_pilot_available l pid).1 pid).2.success = true := by
  obtain ⟨hpid, l1, l2, rfl, hl1⟩ := getPilotById_decomp l pid p h
  have hq : (applyPilotUpd p "Available" (some sentinel) none).pilot_id = pid := by
    rw [applyPilotUpd_pilot_id, hpid]
  have h1 : update_pilot_status (l1 ++ p :: l2) pid "Available" (some sentinel) none =
      (l1 ++ applyPilotUpd p "Available" (some sentinel) none :: l2, true) :=
    update_pilot_status_found _ _ _ _ l1 p l2 hpid hl1
  have hm1 : mark_pilot_available (l1 ++ p :: l2) pid =
      (l1 ++ applyPilotUpd p "Available" (some sentinel) none :: l2,
        ⟨true, "Pilot " ++ pid ++ " marked available"⟩) := by
    unfold mark_pilot_available
    rw [h1]
    rfl
  have h2 : update_pilot_status
      (l1 ++ applyPilotUpd p "Available" (some sentinel) none :: l2) pid "Available"
      (some sentinel) none =
      (l1 ++ applyPilotUpd p "Available" (some sentinel) none :: l2, true) := by
    rw [update_pilot_status_found _ _ _ _ l1 _ l2 hq hl1, applyPilotUpd_available_idem]
  have hm2 : mark_pilot_available
      (l1 ++ applyPilotUpd p "Available" (some sentinel) none :: l2) pid =
      (l1 ++ applyPilotUpd p "Available" (some sentinel) none :: l2,
        ⟨true, "Pilot " ++ pid ++ " marked available"⟩) := by
    unfold mark_pilot_available
    rw [h2]
    rfl
  rw [hm1]
  refine ⟨rfl, ?_, ?_, ?_⟩
  · rw [getPilotById_of_split l1 _ l2 pid hq hl1]
    congr 1
  · rw [hm2]
  · rw [hm2]

/-- Instantiation of `mark_pilot_available_idempotent` at a pilot that is
On Leave with a live assignment. -/
theorem mark_pilot_available_idempotent_witness :
    (mark_pilot_available [pAlice, pBob] "P1").2.success = true ∧
    getPilotById (mark_pilot_available [pAlice, pBob] "P1").1 "P1" =
      some { pAlice with status := "Available", current_assignment := sentinel } ∧
    (mark_pilot_available (mark_pilot_available [pAlice, pBob] "P1").1 "P1").1 =
      (mark_pilot_available [pAlice, pBob] "P1").1 ∧
    (mark_pilot_available (mark_pilot_available [pAlice, pBob] "P1").1 "P1").2.success =
      true :=
  mark_pilot_available_idempotent [pAlice, pBob] "P1" pAlice (by decide)

/-! ### Assignment coordinator

Ids held in the store are non-empty strings (the CSV loader maps empty
cells to NaN, never to the empty string), so the success cases below carry
a non-emptiness hypothesis on the mission id, matching the store's
truthiness test on the assignment argument. -/

theorem assign_pilot_spec (db : DB) (pid mid : String) :
    (getPilotById db.pilots pid = none →
      (assign_pilot_to_mission db pid mid).2.success = false ∧
      (assign_pilot_to_mission db pid mid).1 = db) ∧
    (getMissionById db.missions mid = none →
      (assign_pilot_to_mission db pid mid).2.success = false ∧
      (assign_pilot_to_mission db pid mid).1 = db) ∧
    (∀ p, getPilotById db.pilots pid = some p → p.status ≠ "Available" →
      (assign_pilot_to_mission db pid mid).2.success = false ∧
      (assign_pilot_to_mission db pid mid).1 = db) ∧
    (∀ p m, getPilotById db.pilots pid = some p → getMissionById db.missions mid = some m →
      p.status = "Available" → mid ≠ "" →
      (assign_pilot_to_mission db pid mid).2.success = true ∧
      getPilotById (assign_pilot_to_mission db pid mid).1.pilots pid =
        some { p with status := "Assigned", current_assignment := mid } ∧
      (∀ qid, qid ≠ pid → getPilotById (assign_pilot_to_mission db pid mid).1.pilots qid =
        getPilotById db.pilots qid) ∧
      (assign_pilot_to_mission db pid mid).1.drones = db.drones ∧
      (assign_pilot_to_mission db pid mid).1.missions = db.missions) := by
  refine ⟨?_, ?_, ?_, ?_⟩
  · intro hp
    simp only [assign_pilot_to_mission, hp]
    exact ⟨by trivial, by trivial⟩
  · intro hm
    cases hp : getPilotById db.pilots pid with
    | none =>
      simp only [assign_pilot_to_mission, hp]
      exact ⟨by trivial, by trivial⟩
    | some p =>
      simp only [assign_pilot_to_mission, hp, hm]
      exact ⟨by trivial, by trivial⟩
  · intro p hp hst
    cases hm : getMissionById db.missions mid with
    | none =>
      simp only [assign_pilot_to_mission, hp, hm]
      exact ⟨by trivial, by trivial⟩
    | some m =>
      simp only [assign_pilot_to_mission, hp, hm, if_pos hst]
      exact ⟨by trivial, by trivial⟩
  · intro p m hp hm hst hmid
    obtain ⟨hsnd, hself, hother⟩ :=
      getPilotById_update db.pilots pid p "Assigned" (some mid) none hp
    have happ : applyPilotUpd p "Assigned" (some mid) none =
        { p with status := "Assigned", current_assignment := mid } := by
      rw [applyPilotUpd_eq]
      simp [pyTruthy, hmid]
    have hupa : update_pilot_assignment db.pilots pid mid "Assigned" =
        ((update_pilot_status db.pilots pid "Assigned" (some mid) none).1,
          ⟨true, "Pilot " ++ pid ++ " assigned to " ++ mid⟩) := by
      simp only [update_pilot_assignment, hsnd]
      rfl
    have hres : assign_pilot_to_mission db pid mid =
        ({ db with pilots := (update_pilot_status db.pilots pid "Assigned" (some mid) none).1 },
          ⟨true, "Pilot " ++ pid ++ " assigned to " ++ mid⟩) := by
      simp only [assign_pilot_to_mission, hp, hm, if_neg (not_not_intro hst), hupa]
    rw [hres]
    exact ⟨rfl, happ ▸ hself, hother, rfl, rfl⟩

/-- Instantiation of `assign_pilot_spec`: assigning Available pilot Bob to
M1 succeeds, writes exactly his row, and leaves the other tables alone. -/
theorem assign_pilot_spec_witness :
    (assign_pilot_to_mission dbW "P2" "M1").2.success = true ∧
    getPilotById (assign_pilot_to_mission dbW "P2" "M1").1.pilots "P2" =
      some { pBob with status := "Assigned", current_assignment := "M1" } ∧
    (∀ qid, qid ≠ "P2" → getPilotById (assign_pilot_to_mission dbW "P2" "M1").1.pilots qid =
      getPilotById dbW.pilots qid) ∧
    (assign_pilot_to_mission dbW "P2" "M1").1.drones = dbW.drones ∧
    (assign_pilot_to_mission dbW "P2" "M1").1.missions = dbW.missions :=
  (assign_pilot_spec dbW "P2" "M1").2.2.2 pBob mOne (by decide) (by decide) (by decide)
    (by decide)

/-- C7: `reassign_pilot` performs no availability check: for any existing
pilot and mission it succeeds, records the pilot's previous assignment and
overwrites status/assignment; composed after a successful assign, the
round trip leaves the pilot Assigned to the second mission with
`old_assignment` reporting the first. -/
theorem assign_then_reassign_spec :
    (∀ (db : DB) (pid mid : String) (p : Pilot) (m : Mission),
      getPilotById db.pilots pid = some p → getMissionById db.missions mid = some m →
      mid ≠ "" →
      (reassign_pilot db pid mid).2.success = true ∧
      (reassign_pilot db pid mid).2.old_assignment = some p.current_assignment ∧
      getPilotById (reassign_pilot db pid mid).1.pilots pid =
        some { p with status := "Assigned", current_assignment := mid } ∧
      (∀ qid, qid ≠ pid → getPilotById (reassign_pilot db pid mid).1.pilots qid =
        getPilotById db.pilots qid) ∧
      (reassign_pilot db pid mid).1.missions = db.missions ∧
      (reassign_pilot db pid mid).1.drones = db.drones) ∧
    (∀ (db : DB) (pid m1 m2 : String) (p : Pilot),
      getPilotById db.pilots pid = some p → p.status = "Available" →
      getMissionById db.missions m1 ≠ none → getMissionById db.missions m2 ≠ none →
      m1 ≠ "" → m2 ≠ "" →
      (reassign_pilot (assign_pilot_to_mission db pid m1).1 pid m2).2.success = true ∧
      (reassign_pilot (assign_pilot_to_mission db pid m1).1 pid m2).2.old_assignment =
        some m1 ∧
      getPilotById (reassign_pilot (assign_pilot_to_mission db pid m1).1 pid m2).1.pilots
        pid = some { p with status := "Assigned", current_assignment := m2 }) := by
  have hgen : ∀ (db : DB) (pid mid : String) (p : Pilot) (m : Mission),
      getPilotById db.pilots pid = some p → getMissionById db.missions mid = some m →
      mid ≠ "" →
      (reassign_pilot db pid mid).2.success = true ∧
      (reassign_pilot db pid mid).2.old_assignment = some p.current_assignment ∧
      getPilotById (reassign_pilot db pid mid).1.pilots pid =
        some { p with status := "Assigned", current_assignment := mid } ∧
      (∀ qid, qid ≠ pid → getPilotById (reassign_pilot db pid mid).1.pilots qid =
        getPilotById db.pilots qid) ∧
      (reassign_pilot db pid mid).1.missions = db.missions ∧
      (reassign_pilot db pid mid).1.drones = db.drones := by
    intro db pid mid p m hp hm hmid
    obtain ⟨hsnd, hself, hother⟩ :=
      getPilotById_update db.pilots pid p "Assigned" (some mid) none hp
    have happ : applyPilotUpd p "Assigned" (some mid) none =
        { p with status := "Assigned", current_assignment := mid } := by
      rw [applyPilotUpd_eq]
      simp [pyTruthy, hmid]
    have hupa : update_pilot_assignment db.pilots pid mid "Assigned" =
        ((update_pilot_status db.pilots pid "Assigned" (some mid) none).1,
          ⟨true, "Pilot " ++ pid ++ " assigned to " ++ mid⟩) := by
      simp only [update_pilot_assignment, hsnd]
      rfl
    have hres : reassign_pilot db pid mid =
        ({ db with pilots := (update_pilot_status db.pilots pid "Assigned" (some mid) none).1 },
          ⟨true, "Pilot reassigned from " ++ p.current_assignment ++ " to " ++ mid,
            some p.current_assignment, some mid⟩) := by
      simp only [reassign_pilot, hp, hm, hupa]
      rfl
    rw [hres]
    exact ⟨rfl, rfl, happ ▸ hself, hother, rfl, rfl⟩
  refine ⟨hgen, ?_⟩
  intro db pid m1 m2 p hp hst hm1 hm2 hm1e hm2e
  obtain ⟨mr1, hmr1⟩ := Option.ne_none_iff_exists'.mp hm1
  obtain ⟨mr2, hmr2⟩ := Option.ne_none_iff_exists'.mp hm2
  obtain ⟨hsucc1, hself1, hother1, hdr1, hmi1⟩ :=
    (assign_pilot_spec db pid m1).2.2.2 p mr1 hp hmr1 hst hm1e
  have hm2' : getMissionById (assign_pilot_to_mission db pid m1).1.missions m2 = some mr2 := by
    rw [hmi1]
    exact hmr2
  obtain ⟨hs2, hold2, hself2, _, _, _⟩ :=
    hgen (assign_pilot_to_mission db pid m1).1 pid m2 _ mr2 hself1 hm2' hm2e
  exact ⟨hs2, hold2, hself2⟩

/-- Instantiation of `assign_then_reassign_spec`: assign Bob to M1, then
reassign him to M2; the reassign succeeds, reports M1 as the old
assignment, and leaves Bob Assigned to M2. -/
theorem assign_then_reassign_spec_witness :
    (reassign_pilot (assign_pilot_to_mission dbW "P2" "M1").1 "P2" "M2").2.success = true ∧
    (reassign_pilot (assign_pilot_to_mission dbW "P2" "M1").1 "P2" "M2").2.old_assignment =
      some "M1" ∧
    getPilotById
      (reassign_pilot (assign_pilot_to_mission dbW "P2" "M1").1 "P2" "M2").1.pilots "P2" =
      some { pBob with status := "Assigned", current_assignment := "M2" } :=
  assign_then_reassign_spec.2 dbW "P2" "M1" "M2" pBob (by decide) (by decide) (by decide)
    (by decide) (by decide) (by decide)

/-! ### The sentinel invariant -/

/-- Statuses whose writers always clear the assignment. -/
def statusNeedsSentinel (s : String) : Prop :=
  s = "Available" ∨ s = "On Leave" ∨ s = "Maintenance"

instance : DecidablePred statusNeedsSentinel :=
  fun s => inferInstanceAs (Decidable (s = "Available" ∨ s = "On Leave" ∨ s = "Maintenance"))

/-- status ∈ \x7bAvailable, On Leave, Maintenance\x7d implies the sentinel
assignment, for every pilot row. -/
def pilotInv (l : List Pilot) : Prop :=
  ∀ p ∈ l, statusNeedsSentinel p.status → p.current_assignment = sentinel

instance (l : List Pilot) : Decidable (pilotInv l) :=
  List.decidableBAll
    (fun p : Pilot => statusNeedsSentinel p.status → p.current_assignment = sentinel) l

/-- The drone version of the invariant. -/
def droneInv (l : List Drone) : Prop :=
  ∀ d ∈ l, statusNeedsSentinel d.status → d.current_assignment = sentinel

instance (l : List Drone) : Decidable (droneInv l) :=
  List.decidableBAll
    (fun d : Drone => statusNeedsSentinel d.status → d.current_assignment = sentinel) l

/-- A store update preserves the invariant as soon as writes of a
sentinel-needing status come with the sentinel assignment argument. -/
theorem pilotInv_update (pid st : String) (asg af : Option String)
    (hst : statusNeedsSentinel st → asg = some sentinel) :
    ∀ (l : List Pilot), pilotInv l → pilotInv (update_pilot_status l pid st asg af).1 := by
  intro l
  induction l with
  | nil =>
    intro _ p hp
    simp [update_pilot_status] at hp
  | cons q rest ih =>
    intro hinv
    rw [update_pilot_status]
    by_cases hq : q.pilot_id = pid
    · rw [if_pos hq]
      intro p hp
      rcases List.mem_cons.mp hp with rfl | hp
      · intro hneeds
        rw [applyPilotUpd_eq] at hneeds ⊢
        simp only at hneeds
        rw [hst hneeds] at *
        simp [pyTruthy, sentinel]
      · exact hinv p (List.mem_cons_of_mem q hp)
    · rw [if_neg hq]
      intro p hp
      rcases List.mem_cons.mp hp with rfl | hp
      · exact hinv p (List.mem_cons_self p rest)
      · exact ih (fun r hr => hinv r (List.mem_cons_of_mem q hr)) p hp

theorem droneInv_update (did st : String) (asg : Option String)
    (hst : statusNeedsSentinel st → asg = some sentinel) :
    ∀ (l : List Drone), droneInv l → droneInv (update_drone_status l did st asg).1 := by
  intro l
  induction l with
  | nil =>
    intro _ d hd
    simp [update_drone_status] at hd
  | cons q rest ih =>
    intro hinv
    rw [update_drone_status]
    by_cases hq : q.drone_id = did
    · rw [if_pos hq]
      intro d hd
      rcases List.mem_cons.mp hd with rfl | hd
      · intro hneeds
        rw [applyDroneUpd_eq] at hneeds ⊢
        simp only at hneeds
        rw [hst hneeds] at *
        simp [pyTruthy, sentinel]
      · exact hinv d (List.mem_cons_of_mem q hd)
    · rw [if_neg hq]
      intro d hd
      rcases List.mem_cons.mp hd with rfl | hd
      · exact hinv d (List.mem_cons_self d rest)
      · exact ih (fun r hr => hinv r (List.mem_cons_of_mem q hr)) d hd

theorem mark_pilot_available_fst (l : List Pilot) (pid : String) :
    (mark_pilot_available l pid).1 =
      (update_pilot_status l pid "Available" (some sentinel) none).1 := by
  simp only [mark_pilot_available]
  split <;> rfl

theorem mark_pilot_on_leave_fst (l : List Pilot) (pid af : String) :
    (mark_pilot_on_leave l pid af).1 =
      (update_pilot_status l pid "On Leave" (some sentinel) (some af)).1 := by
  simp only [mark_pilot_on_leave]
  split <;> rfl

theorem update_pilot_assignment_fst (l : List Pilot) (pid proj status : String) :
    (update_pilot_assignment l pid proj status).1 =
      (update_pilot_status l pid status (some proj) none).1 := by
  simp only [update_pilot_assignment]
  split <;> rfl

theorem assign_drone_fst (l : List Drone) (did proj : String) :
    (assign_drone l did proj).1 = (update_drone_status l did "Deployed" (some proj)).1 := by
  simp only [assign_drone]
  split <;> rfl

theorem mark_drone_available_fst (l : List Drone) (did : String) :
    (mark_drone_available l did).1 =
      (update_drone_status l did "Available" (some sentinel)).1 := by
  simp only [mark_drone_available]
  split <;> rfl

theorem mark_drone_maintenance_fst (l : List Drone) (did : String) :
    (mark_drone_maintenance l did).1 =
      (update_drone_status l did "Maintenance" (some sentinel)).1 := by
  simp only [mark_drone_maintenance]
  split <;> rfl

theorem pilotInv_autoStep (st : DB × List Reassignment) (c : Conflict)
    (h : pilotInv st.1.pilots) : pilotInv (autoStep st c).1.pilots := by
  cases hcp : c.pilot_id with
  | none => simp only [autoStep, hcp]; exact h
  | some pid =>
    cases hca : c.assignment with
    | none => simp only [autoStep, hcp, hca]; exact h
    | some mid =>
      cases hfr : find_best_replacement_pilot st.1 mid with
      | none => simp only [autoStep, hcp, hca, hfr]; exact h
      | some repl =>
        simp only [autoStep, hcp, hca, hfr]
        refine pilotInv_update _ "Assigned" _ _ (fun hh => absurd hh (by decide)) _ ?_
        exact pilotInv_update _ _ _ _ (fun _ => rfl) _ h

theorem pilotInv_foldl_autoStep : ∀ (cs : List Conflict) (st : DB × List Reassignment),
    pilotInv st.1.pilots → pilotInv (cs.foldl autoStep st).1.pilots := by
  intro cs
  induction cs with
  | nil => intro st h; exact h
  | cons c rest ih =>
    intro st h
    rw [List.foldl_cons]
    exact ih (autoStep st c) (pilotInv_autoStep st c h)

/-- C9: every core mutation entry point that writes a status of
Available / On Leave / Maintenance clears the assignment to the sentinel,
and the entry points that write a mission id set status Assigned (pilots)
or Deployed (drones); hence the invariant "status ∈
\x7bAvailable, On Leave, Maintenance\x7d implies sentinel assignment" is
preserved by every core operation (so a violation can only come from the
externally loaded data). -/
theorem sentinel_invariant_spec :
    (∀ (l : List Pilot) (pid : String), pilotInv l →
      pilotInv (mark_pilot_available l pid).1) ∧
    (∀ (l : List Pilot) (pid af : String), pilotInv l →
      pilotInv (mark_pilot_on_leave l pid af).1) ∧
    (∀ (l : List Pilot) (pid proj : String), pilotInv l →
      pilotInv (update_pilot_assignment l pid proj "Assigned").1) ∧
    (∀ (db : DB) (pid mid : String), pilotInv db.pilots →
      pilotInv (assign_pilot_to_mission db pid mid).1.pilots) ∧
    (∀ (db : DB) (pid mid : String), pilotInv db.pilots →
      pilotInv (reassign_pilot db pid mid).1.pilots) ∧
    (∀ (l : List Pilot) (pid : String), pilotInv l → pilotInv (unassign_pilot l pid).1) ∧
    (∀ (l : List Drone) (did : String), droneInv l →
      droneInv (mark_drone_available l did).1) ∧
    (∀ (l : List Drone) (did : String), droneInv l →
      droneInv (mark_drone_maintenance l did).1) ∧
    (∀ (l : List Drone) (did proj : String), droneInv l →
      droneInv (assign_drone l did proj).1) ∧
    (∀ (db : DB) (did mid : String), droneInv db.drones →
      droneInv (assign_drone_to_mission db did mid).1.drones) ∧
    (∀ (db : DB) (did mid : String), droneInv db.drones →
      droneInv (reassign_drone db did mid).1.drones) ∧
    (∀ (l : List Drone) (did : String), droneInv l → droneInv (unassign_drone l did).1) ∧
    (∀ (db : DB), pilotInv db.pilots →
      pilotInv (auto_reassign_urgent_conflicts db).1.pilots) := by
  have hpa : ∀ (l : List Pilot) (pid : String), pilotInv l →
      pilotInv (mark_pilot_available l pid).1 := by
    intro l pid h
    rw [mark_pilot_available_fst]
    exact pilotInv_update _ _ _ _ (fun _ => rfl) _ h
  have hda : ∀ (l : List Drone) (did : String), droneInv l →
      droneInv (mark_drone_available l did).1 := by
    intro l did h
    rw [mark_drone_available_fst]
    exact droneInv_update _ _ _ (fun _ => rfl) _ h
  have hupa : ∀ (l : List Pilot) (pid proj : String), pilotInv l →
      pilotInv (update_pilot_assignment l pid proj "Assigned").1 := by
    intro l pid proj h
    rw [update_pilot_assignment_fst]
    exact pilotInv_update _ _ _ _ (fun hh => absurd hh (by decide)) _ h
  have hadr : ∀ (l : List Drone) (did proj : String), droneInv l →
      droneInv (assign_drone l did proj).1 := by
    intro l did proj h
    rw [assign_drone_fst]
    exact droneInv_update _ _ _ (fun hh => absurd hh (by decide)) _ h
  refine ⟨hpa, ?_, hupa, ?_, ?_, hpa, hda, ?_, hadr, ?_, ?_, hda, ?_⟩
  · intro l pid af h
    rw [mark_pilot_on_leave_fst]
    exact pilotInv_update _ _ _ _ (fun _ => rfl) _ h
  · intro db pid mid h
    cases hp : getPilotById db.pilots pid with
    | none => simp only [assign_pilot_to_mission, hp]; exact h
    | some p =>
      cases hm : getMissionById db.missions mid with
      | none => simp only [assign_pilot_to_mission, hp, hm]; exact h
      | some m =>
        simp only [assign_pilot_to_mission, hp, hm]
        split
        · exact h
        · exact hupa db.pilots pid mid h
  · intro db pid mid h
    cases hp : getPilotById db.pilots pid with
    | none => simp only [reassign_pilot, hp]; exact h
    | some p =>
      cases hm : getMissionById db.missions mid with
      | none => simp only [reassign_pilot, hp, hm]; exact h
      | some m =>
        simp only [reassign_pilot, hp, hm]
        split
        · exact hupa db.pilots pid mid h
        · exact hupa db.pilots pid mid h
  · intro l did h
    rw [mark_drone_maintenance_fst]
    exact droneInv_update _ _ _ (fun _ => rfl) _ h
  · intro db did mid h
    cases hd : getDroneById db.drones did with
    | none => simp only [assign_drone_to_mission, hd]; exact h
    | some d =>
      cases hm : getMissionById db.missions mid with
      | none => simp only [assign_drone_to_mission, hd, hm]; exact h
      | some m =>
        simp only [assign_drone_to_mission, hd, hm]
        split
        · exact h
        · exact hadr db.drones did mid h
  · intro db did mid h
    cases hd : getDroneById db.drones did with
    | none => simp only [reassign_drone, hd]; exact h
    | some d =>
      cases hm : getMissionById db.missions mid with
      | none => simp only [reassign_drone, hd, hm]; exact h
      | some m =>
        simp only [reassign_drone, hd, hm]
        split
        · exact hadr db.drones did mid h
        · exact hadr db.drones did mid h
  · intro db h
    unfold auto_reassign_urgent_conflicts
    exact pilotInv_foldl_autoStep _ (db, []) h

/-- Instantiation of `sentinel_invariant_spec`: a few core operations run
on a table satisfying the invariant, preserving it. -/
theorem sentinel_invariant_spec_witness :
    pilotInv (mark_pilot_on_leave [pBob] "P2" "2025-02-01").1 ∧
    pilotInv (assign_pilot_to_mission ⟨[pBob], [], [mOne]⟩ "P2" "M1").1.pilots ∧
    droneInv (mark_drone_maintenance
      [⟨"D2", "Phantom", "Survey", "Delhi", "Available", "–", "2025-06-01"⟩] "D2").1 ∧
    pilotInv (auto_reassign_urgent_conflicts ⟨[pBob], [], [mOne]⟩).1.pilots :=
  ⟨sentinel_invariant_spec.2.1 [pBob] "P2" "2025-02-01" (by decide),
    sentinel_invariant_spec.2.2.2.1 ⟨[pBob], [], [mOne]⟩ "P2" "M1" (by decide),
    sentinel_invariant_spec.2.2.2.2.2.2.2.1
      [⟨"D2", "Phantom", "Survey", "Delhi", "Available", "–", "2025-06-01"⟩] "D2" (by decide),
    sentinel_invariant_spec.2.2.2.2.2.2.2.2.2.2.2.2 ⟨[pBob], [], [mOne]⟩ (by decide)⟩

/-! ### Automatic reassignment of urgent conflicts -/

theorem applyPilotUpd_clear (old : Pilot) (st : String) :
    applyPilotUpd old st (some sentinel) none =
      { old with status := st, current_assignment := sentinel } := by
  rw [applyPilotUpd_eq]
  simp [pyTruthy, sentinel]

/-- C5: processing one CRITICAL/HIGH finding that carries a pilot id and an
assignment: with no replacement found, a FAILED record is appended and no
table is touched; with a replacement, the old pilot's row is cleared to the
sentinel with the finding's recorded status (default "On Leave"), the
replacement is set Assigned on that mission, and a SUCCESS record is
appended.  Findings without both keys are skipped.  The full
`auto_reassign_urgent_conflicts` folds this step over exactly the
CRITICAL/HIGH findings, appending one record per processed finding. -/
theorem auto_reassign_spec :
    (∀ (st : DB × List Reassignment) (c : Conflict),
      (c.pilot_id = none ∨ c.assignment = none) → autoStep st c = st) ∧
    (∀ (st : DB × List Reassignment) (c : Conflict) (pid mid : String),
      c.pilot_id = some pid → c.assignment = some mid →
      (find_best_replacement_pilot st.1 mid = none →
        (autoStep st c).1 = st.1 ∧
        (autoStep st c).2 = st.2 ++ [⟨c.issue, c.pilot_name.getD pid, none, none, mid,
          "FAILED", "❌ No suitable replacement found for " ++ mid⟩]) ∧
      (∀ repl, find_best_replacement_pilot st.1 mid = some repl →
        ((autoStep st c).2 = st.2 ++ [⟨c.issue, c.pilot_name.getD pid, some repl.name,
          some repl.pilot_id, mid, "SUCCESS",
          "✅ Auto-reassigned " ++ mid ++ ": " ++ c.pilot_name.getD pid ++ " → " ++
            repl.name⟩]) ∧
        (autoStep st c).1.drones = st.1.drones ∧
        (autoStep st c).1.missions = st.1.missions ∧
        (∀ old, getPilotById st.1.pilots pid = some old →
          getPilotById st.1.pilots repl.pilot_id = some repl →
          pid ≠ repl.pilot_id → mid ≠ "" →
          getPilotById (autoStep st c).1.pilots pid =
            some { old with
              status := c.pilot_status.getD "On Leave"
              current_assignment := sentinel } ∧
          getPilotById (autoStep st c).1.pilots repl.pilot_id =
            some { repl with status := "Assigned", current_assignment := mid }))) ∧
    (∀ db : DB, auto_reassign_urgent_conflicts db =
      ((get_all_conflicts db).filter isUrgent).foldl autoStep (db, [])) ∧
    (∀ db : DB, (auto_reassign_urgent_conflicts db).2.length =
      ((get_all_conflicts db).filter isUrgent).countP
        (fun c => c.pilot_id.isSome && c.assignment.isSome)) := by
  have hstep_len : ∀ (st : DB × List Reassignment) (c : Conflict),
      (autoStep st c).2.length =
        st.2.length + (if (c.pilot_id.isSome && c.assignment.isSome) = true then 1 else 0) := by
    intro st c
    cases hcp : c.pilot_id with
    | none => simp [autoStep, hcp]
    | some pid =>
      cases hca : c.assignment with
      | none => simp [autoStep, hcp, hca]
      | some mid =>
        cases hfr : find_best_replacement_pilot st.1 mid with
        | none => simp [autoStep, hcp, hca, hfr]
        | some repl => simp [autoStep, hcp, hca, hfr]
  have hfold_len : ∀ (cs : List Conflict) (st : DB × List Reassignment),
      (cs.foldl autoStep st).2.length =
        st.2.length + cs.countP (fun c => c.pilot_id.isSome && c.assignment.isSome) := by
    intro cs
    induction cs with
    | nil => intro st; simp
    | cons c rest ih =>
      intro st
      rw [List.foldl_cons, ih (autoStep st c), hstep_len st c, List.countP_cons]
      omega
  refine ⟨?_, ?_, fun _ => rfl, ?_⟩
  · intro st c h
    rcases h with h | h
    · simp only [autoStep, h]
    · cases hcp : c.pilot_id with
      | none => simp only [autoStep, hcp]
      | some pid => simp only [autoStep, hcp, h]
  · intro st c pid mid hcp hca
    constructor
    · intro hfr
      simp only [autoStep, hcp, hca, hfr]
      exact ⟨by trivial, by trivial⟩
    · intro repl hfr
      simp only [autoStep, hcp, hca, hfr]
      refine ⟨by trivial, by trivial, by trivial, ?_⟩
      intro old hold hfirst hne hmid
      obtain ⟨_, hself1, hother1⟩ := getPilotById_update st.1.pilots pid old
        (c.pilot_status.getD "On Leave") (some sentinel) none hold
      have hfirst' : getPilotById
          (update_pilot_status st.1.pilots pid (c.pilot_status.getD "On Leave")
            (some sentinel) none).1 repl.pilot_id = some repl := by
        rw [hother1 repl.pilot_id (fun hh => hne hh.symm)]
        exact hfirst
      obtain ⟨_, hself2, hother2⟩ := getPilotById_update _ repl.pilot_id repl
        "Assigned" (some mid) none hfirst'
      constructor
      · rw [hother2 pid hne, hself1, applyPilotUpd_clear]
      · rw [hself2, applyPilotUpd_eq]
        simp [pyTruthy, hmid]
  · intro db
    unfold auto_reassign_urgent_conflicts
    rw [hfold_len]
    simp

/-- The first finding `auto_reassign_urgent_conflicts` processes on the
concrete tables: Alice (P1, On Leave, assigned M1). -/
def cW : Conflict :=
  ⟨"Pilot On Leave but Assigned", "CRITICAL", "Alice is On Leave but assigned to M1",
    some "P1", some "Alice", some "On Leave", none, none, some "M1"⟩

/-- Instantiation of `auto_reassign_spec` on the concrete tables: Alice's
conflict is resolved by clearing her row back to On Leave / sentinel and
assigning Bob to M1, all hypotheses discharged concretely. -/
theorem auto_reassign_spec_witness :
    getPilotById (autoStep (dbW, []) cW).1.pilots "P1" =
      some { pAlice with
        status := cW.pilot_status.getD "On Leave"
        current_assignment := sentinel } ∧
    getPilotById (autoStep (dbW, []) cW).1.pilots "P2" =
      some { pBob with status := "Assigned", current_assignment := "M1" } :=
  ((auto_reassign_spec.2.1 (dbW, []) cW "P1" "M1" rfl rfl).2 pBob (by decide)).2.2.2
    pAlice (by decide) (by decide) (by decide) (by decide)

end Skylark
